import Mathlib

/-!
NDB Cluster handler (`sql/ha_ndbcluster.h`).

A shallow embedding of the inline code of the NDB Cluster handler header and
of the session / share data it works on.

Conventions of the embedding
* a C pointer to a cluster object (`NdbTransaction *`, `NdbScanOperation *`)
  is an `Option`: `none` is the NULL pointer, `some h` a live handle `h`;
* an `int &` out-parameter is passed in and handed back in the result;
* `uint` / `uint32` fields are natural numbers reduced modulo `2 ^ 32`
  wherever the code does arithmetic on them;
* member functions that are only declared in the header are taken as
  parameters, or modelled from the specification where a property depends on
  what they do (each such definition says so in its doc comment).
-/

namespace NdbCluster

/-! ## Session data: `class Thd_ndb` -/

/-- One buffered row operation of the batch arena: the row's originating
slot and the number of bytes it occupies in `m_batch_mem_root`. -/
structure BatchedRow where
  slot : Nat
  bytes : Nat
  deriving DecidableEq, Repr

/-- The fields of `class Thd_ndb` the handler code below reads or writes.
`m_batch_mem_root` is the list of rows buffered for batched execution. -/
structure Thd_ndb where
  trans : Option Nat
  m_batch_mem_root : List BatchedRow
  m_unsent_bytes : Nat
  m_batch_size : Nat
  m_execute_count : Nat
  deriving DecidableEq, Repr

/-! ## Transaction start: `get_transaction`, `get_transaction_part_id` -/

/-- What a transaction-start member function hands back: the returned
`NdbTransaction *`, the session as it left it, and the `int &error`
out-parameter. -/
structure StartResult where
  ret : Option Nat
  thd_ndb : Thd_ndb
  error : Int
  deriving DecidableEq, Repr

/-- The calls a `get_transaction*` invocation makes to the out-of-line
start functions. -/
inductive StartCall where
  | start_transaction
  | start_transaction_part_id (part_id : Nat)
  deriving DecidableEq, Repr

/-- Result of `get_transaction` / `get_transaction_part_id`: the start result
together with the out-of-line start calls made on the way. -/
structure GetResult where
  ret : Option Nat
  thd_ndb : Thd_ndb
  error : Int
  calls : List StartCall
  deriving DecidableEq, Repr

/-- Member `ha_ndbcluster::get_transaction(int &error)`:
```
if (m_thd_ndb->trans) return m_thd_ndb->trans;
return start_transaction(error);
```
The declared-only member `start_transaction` is a parameter. -/
def get_transaction (start_transaction : Thd_ndb → Int → StartResult)
    (m_thd_ndb : Thd_ndb) (error : Int) : GetResult :=
  if m_thd_ndb.trans.isSome then
    { ret := m_thd_ndb.trans, thd_ndb := m_thd_ndb, error := error, calls := [] }
  else
    let r := start_transaction m_thd_ndb error
    { ret := r.ret, thd_ndb := r.thd_ndb, error := r.error,
      calls := [StartCall.start_transaction] }

/-- Member `ha_ndbcluster::get_transaction_part_id(uint32 part_id, int &error)`:
```
if (m_thd_ndb->trans) return m_thd_ndb->trans;
return start_transaction_part_id(part_id, error);
```
The declared-only member `start_transaction_part_id` is a parameter. -/
def get_transaction_part_id
    (start_transaction_part_id : Nat → Thd_ndb → Int → StartResult)
    (m_thd_ndb : Thd_ndb) (part_id : Nat) (error : Int) : GetResult :=
  if m_thd_ndb.trans.isSome then
    { ret := m_thd_ndb.trans, thd_ndb := m_thd_ndb, error := error, calls := [] }
  else
    let r := start_transaction_part_id part_id m_thd_ndb error
    { ret := r.ret, thd_ndb := r.thd_ndb, error := r.error,
      calls := [StartCall.start_transaction_part_id part_id] }

/-- What the cluster answers when asked to open a transaction: a fresh
handle, or one of the two failures of the start contract with the error
code reported for it. -/
inductive ClusterAnswer where
  | started (handle : Nat)
  | noConnection (code : Int)
  | resourceExhausted (code : Int)
  deriving DecidableEq, Repr

/-- Modelled from the spec: the body of `ha_ndbcluster::start_transaction`
(declared in the header, defined out of line). The session owns the single
active transaction handle: a successful start makes the opened transaction
the session's `trans` and returns it; a start that fails with `NoConnection`
or `ResourceExhausted` returns NULL, reports the code through `error` and
leaves the session as it was. -/
def start_transaction (answer : ClusterAnswer) (m_thd_ndb : Thd_ndb)
    (error : Int) : StartResult :=
  match answer with
  | ClusterAnswer.started h =>
      { ret := some h, thd_ndb := { m_thd_ndb with trans := some h }, error := error }
  | ClusterAnswer.noConnection code =>
      { ret := none, thd_ndb := m_thd_ndb, error := code }
  | ClusterAnswer.resourceExhausted code =>
      { ret := none, thd_ndb := m_thd_ndb, error := code }

/-- Modelled from the spec: the body of
`ha_ndbcluster::start_transaction_part_id` (declared in the header, defined
out of line). The partition hint only selects the coordinator node; the
handle is stored and reported exactly as by `start_transaction`. -/
def start_transaction_part_id (answer : Nat → ClusterAnswer) (part_id : Nat)
    (m_thd_ndb : Thd_ndb) (error : Int) : StartResult :=
  start_transaction (answer part_id) m_thd_ndb error

/-! ## Table share: `struct NDB_SHARE` -/

/-- The enumeration `NDB_SHARE_STATE`. -/
inductive NDB_SHARE_STATE where
  | NSS_INITIAL
  | NSS_DROPPED
  | NSS_ALTERED
  deriving DecidableEq, Repr

/-- The fields of `struct NDB_SHARE` the inline accessors touch or must leave
alone. `mutex` is the lock state of `pthread_mutex_t mutex`: `true` while
some thread holds it. -/
structure NDB_SHARE where
  state : NDB_SHARE_STATE
  mutex : Bool
  key : String
  use_count : Nat
  commit_count_lock : Nat
  commit_count : Nat
  connect_count : Nat
  flags : Nat
  deriving DecidableEq, Repr

/-- What a share accessor does to the share, in program order. An access to
`share->state` records whether the mutex was held at that moment. -/
inductive ShareEvent where
  | mutex_lock
  | mutex_unlock
  | read_state (mutex_held : Bool)
  | write_state (mutex_held : Bool)
  deriving DecidableEq, Repr

/-- A share together with the events performed on it so far. -/
structure ShareMachine where
  share : NDB_SHARE
  trace : List ShareEvent
  deriving DecidableEq, Repr

/-- Outcome of a share accessor that returned: its return value, the share it
leaves behind and the events it performed. -/
structure ShareRun (α : Type) where
  ret : α
  share : NDB_SHARE
  trace : List ShareEvent
  deriving DecidableEq, Repr

/-- Library call `pthread_mutex_lock(&share->mutex)`. On a mutex that is
already held the call blocks; in this sequential embedding it then does not
return (`none`). -/
def pthread_mutex_lock (m : ShareMachine) : Option ShareMachine :=
  if m.share.mutex then none
  else some { share := { m.share with mutex := true },
              trace := m.trace ++ [ShareEvent.mutex_lock] }

/-- Library call `pthread_mutex_unlock(&share->mutex)`. -/
def pthread_mutex_unlock (m : ShareMachine) : ShareMachine :=
  { share := { m.share with mutex := false },
    trace := m.trace ++ [ShareEvent.mutex_unlock] }

/-- The read `share->state`, recorded with the lock state at that moment. -/
def read_share_state (m : ShareMachine) : NDB_SHARE_STATE × ShareMachine :=
  (m.share.state, { m with trace := m.trace ++ [ShareEvent.read_state m.share.mutex] })

/-- The assignment `share->state= state`, recorded with the lock state at
that moment. -/
def write_share_state (m : ShareMachine) (state : NDB_SHARE_STATE) : ShareMachine :=
  { share := { m.share with state := state },
    trace := m.trace ++ [ShareEvent.write_state m.share.mutex] }

/-- Inline function `get_ndb_share_state(NDB_SHARE *share)`:
```
pthread_mutex_lock(&share->mutex);
state= share->state;
pthread_mutex_unlock(&share->mutex);
return state;
``` -/
def get_ndb_share_state (share : NDB_SHARE) : Option (ShareRun NDB_SHARE_STATE) :=
  match pthread_mutex_lock { share := share, trace := [] } with
  | none => none
  | some m1 =>
      let r := read_share_state m1
      let m3 := pthread_mutex_unlock r.2
      some { ret := r.1, share := m3.share, trace := m3.trace }

/-- Inline function `set_ndb_share_state(NDB_SHARE *share, NDB_SHARE_STATE state)`:
```
pthread_mutex_lock(&share->mutex);
share->state= state;
pthread_mutex_unlock(&share->mutex);
``` -/
def set_ndb_share_state (share : NDB_SHARE) (state : NDB_SHARE_STATE) :
    Option (ShareRun Unit) :=
  match pthread_mutex_lock { share := share, trace := [] } with
  | none => none
  | some m1 =>
      let m2 := write_share_state m1 state
      let m3 := pthread_mutex_unlock m2
      some { ret := (), share := m3.share, trace := m3.trace }

/-- A sequence of `set_ndb_share_state` calls on one share, in call order.
`none` when one of the calls does not return. -/
def set_ndb_share_state_seq (share : NDB_SHARE) :
    List NDB_SHARE_STATE → Option NDB_SHARE
  | [] => some share
  | state :: rest =>
      match set_ndb_share_state share state with
      | none => none
      | some run => set_ndb_share_state_seq run.share rest

/-- Number of occurrences of an event in a trace. -/
def countEvent (e : ShareEvent) (trace : List ShareEvent) : Nat :=
  trace.count e

/-- Every access to `share->state` in the trace happened with the mutex held. -/
def accessesUnderMutex : List ShareEvent → Bool
  | [] => true
  | ShareEvent.read_state held :: rest => held && accessesUnderMutex rest
  | ShareEvent.write_state held :: rest => held && accessesUnderMutex rest
  | _ :: rest => accessesUnderMutex rest

/-! ## `NDB_SHARE.flags`

The setters also emit a `DBUG_PRINT` trace line, which touches no share and
has no counterpart here. -/

/-- Table has hidden primary key. -/
def NSF_HIDDEN_PK : Nat := 1
/-- Table has blob attributes. -/
def NSF_BLOB_FLAG : Nat := 2
/-- Table should not be binlogged. -/
def NSF_NO_BINLOG : Nat := 4
/-- Table should be binlogged with full rows. -/
def NSF_BINLOG_FULL : Nat := 8
/-- Table update should be binlogged using update log event. -/
def NSF_BINLOG_USE_UPDATE : Nat := 16

/-- Reduction of a value to the range of `uint32`. -/
def uint32 (x : Nat) : Nat := x % 2 ^ 32

/-- The C operator `~` on a `uint32` operand. -/
def not32 (x : Nat) : Nat := 2 ^ 32 - 1 - uint32 x

/-- Inline `set_binlog_logging`: `share->flags&= ~NSF_NO_BINLOG`. -/
def set_binlog_logging (share : NDB_SHARE) : NDB_SHARE :=
  { share with flags := uint32 (share.flags &&& not32 NSF_NO_BINLOG) }

/-- Inline `set_binlog_nologging`: `share->flags|= NSF_NO_BINLOG`. -/
def set_binlog_nologging (share : NDB_SHARE) : NDB_SHARE :=
  { share with flags := uint32 (share.flags ||| NSF_NO_BINLOG) }

/-- Inline `get_binlog_nologging`: `(share->flags & NSF_NO_BINLOG) != 0`. -/
def get_binlog_nologging (share : NDB_SHARE) : Bool :=
  (share.flags &&& NSF_NO_BINLOG) != 0

/-- Inline `set_binlog_updated_only`: `share->flags&= ~NSF_BINLOG_FULL`. -/
def set_binlog_updated_only (share : NDB_SHARE) : NDB_SHARE :=
  { share with flags := uint32 (share.flags &&& not32 NSF_BINLOG_FULL) }

/-- Inline `set_binlog_full`: `share->flags|= NSF_BINLOG_FULL`. -/
def set_binlog_full (share : NDB_SHARE) : NDB_SHARE :=
  { share with flags := uint32 (share.flags ||| NSF_BINLOG_FULL) }

/-- Inline `get_binlog_full`: `(share->flags & NSF_BINLOG_FULL) != 0`. -/
def get_binlog_full (share : NDB_SHARE) : Bool :=
  (share.flags &&& NSF_BINLOG_FULL) != 0

/-- Inline `set_binlog_use_write`: `share->flags&= ~NSF_BINLOG_USE_UPDATE`. -/
def set_binlog_use_write (share : NDB_SHARE) : NDB_SHARE :=
  { share with flags := uint32 (share.flags &&& not32 NSF_BINLOG_USE_UPDATE) }

/-- Inline `set_binlog_use_update`: `share->flags|= NSF_BINLOG_USE_UPDATE`. -/
def set_binlog_use_update (share : NDB_SHARE) : NDB_SHARE :=
  { share with flags := uint32 (share.flags ||| NSF_BINLOG_USE_UPDATE) }

/-- Inline `get_binlog_use_update`: `(share->flags & NSF_BINLOG_USE_UPDATE) != 0`. -/
def get_binlog_use_update (share : NDB_SHARE) : Bool :=
  (share.flags &&& NSF_BINLOG_USE_UPDATE) != 0


/-! ## Batch buffer: `m_batch_mem_root`, `m_unsent_bytes`, `m_batch_size` -/

/-- A session together with the round trips it has issued to the cluster so
far, each with the operations it carried. -/
structure BatchSession where
  thd_ndb : Thd_ndb
  round_trips : List (List BatchedRow)
  deriving DecidableEq, Repr

/-- Modelled from the spec: the body of `ha_ndbcluster::copy_row_to_buffer`
(declared in the header, defined out of line). Enqueueing copies the row
payload into the session arena, behind the rows already buffered. -/
def copy_row_to_buffer (thd_ndb : Thd_ndb) (row : BatchedRow) : Thd_ndb :=
  { thd_ndb with m_batch_mem_root := thd_ndb.m_batch_mem_root ++ [row] }

/-- Modelled from the spec: the body of
`ha_ndbcluster::add_row_check_if_batch_full_size` (declared in the header,
defined out of line). It accounts `size` more bytes in the `uint` counter
`m_unsent_bytes` and reports whether the estimated buffered bytes now exceed
the configured threshold `m_batch_size` ("once this is > BATCH_FLUSH_SIZE we
execute() to flush the rows buffered in m_batch_mem_root"). -/
def add_row_check_if_batch_full_size (thd_ndb : Thd_ndb) (size : Nat) :
    Bool × Thd_ndb :=
  let unsent := uint32 (thd_ndb.m_unsent_bytes + size)
  (decide (thd_ndb.m_batch_size < unsent), { thd_ndb with m_unsent_bytes := unsent })

/-- Modelled from the spec: the synchronous flush (the `execute()` of the
header comments, defined out of line). All buffered operations go to the
cluster as one round trip and the arena is reset: `m_batch_mem_root` is
emptied ("reset after every execute()") and `m_unsent_bytes` is zero. -/
def flush (b : BatchSession) : BatchSession :=
  { thd_ndb := { b.thd_ndb with m_batch_mem_root := []
                                m_unsent_bytes := 0
                                m_execute_count := uint32 (b.thd_ndb.m_execute_count + 1) }
    round_trips := b.round_trips ++ [b.thd_ndb.m_batch_mem_root] }

/-- Modelled from the spec: one row enqueue followed by `maybe_flush`. The row
is copied into the arena, its bytes are accounted by the batch-full check, and
the batch is flushed when the check says it is full. -/
def enqueue_row (b : BatchSession) (row : BatchedRow) : BatchSession :=
  let buffered := copy_row_to_buffer b.thd_ndb row
  let check := add_row_check_if_batch_full_size buffered row.bytes
  if check.1 then flush { b with thd_ndb := check.2 }
  else { b with thd_ndb := check.2 }

/-- A sequence of row enqueues, in order. -/
def enqueue_rows (b : BatchSession) (rows : List BatchedRow) : BatchSession :=
  rows.foldl enqueue_row b

/-- The byte estimate is that of the arena: `m_unsent_bytes` is the sum of the
bytes of the buffered rows, as a `uint`. -/
def arena_accounted (thd_ndb : Thd_ndb) : Prop :=
  thd_ndb.m_unsent_bytes = uint32 ((thd_ndb.m_batch_mem_root.map BatchedRow.bytes).sum)

instance (thd_ndb : Thd_ndb) : Decidable (arena_accounted thd_ndb) := by
  unfold arena_accounted
  infer_instance

/-! ## Scan cursor: `fetch_next`, `next_result`, `close_scan` -/

/-- A row as the cluster delivers it: its key and its payload. -/
structure Row where
  key : Int
  data : Nat
  deriving DecidableEq, Repr

/-- The cluster's side of an open scan (`NdbScanOperation`): the rows of the
current batch not yet served and the batches the cluster has still to
deliver. -/
structure NdbScanOperation where
  buffered : List Row
  batches : List (List Row)
  deriving DecidableEq, Repr

/-- The states of a scan cursor. -/
inductive ScanState where
  | Idle
  | Initialized
  | Fetching
  | RowReady
  | Exhausted
  | Closed
  deriving DecidableEq, Repr

/-- What one `next()` call on a cursor gives the caller. -/
inductive NextResult where
  | row (r : Row)
  | exhausted
  | none
  deriving DecidableEq, Repr

/-- The scan fields of the handler: the cursor state, the active scan
operation `m_active_cursor` and the row `m_next_row` points at. -/
structure ScanCursor where
  state : ScanState
  m_active_cursor : Option NdbScanOperation
  m_next_row : Option Row
  deriving DecidableEq, Repr

/-- The fetch-next-batch round trip: the first row of the next batch that
holds one, the rest of that batch and the batches after it; `none` at
end-of-data. -/
def fetch_batch : List (List Row) → Option (Row × List Row × List (List Row))
  | [] => Option.none
  | [] :: later => fetch_batch later
  | (r :: rs) :: later => some (r, rs, later)

/-- Modelled from the spec: the body of `ha_ndbcluster::fetch_next` (declared
in the header, defined out of line). A buffered row is served if one remains;
otherwise the next batch is fetched from the cluster, which either produces a
row or signals end-of-data (`none`). -/
def fetch_next (op : NdbScanOperation) : Option Row × NdbScanOperation :=
  match op.buffered with
  | r :: rs => (some r, { op with buffered := rs })
  | [] =>
      match fetch_batch op.batches with
      | some (r, rs, later) => (some r, { buffered := rs, batches := later })
      | Option.none => (Option.none, { buffered := [], batches := [] })

/-- Modelled from the spec: the body of `ha_ndbcluster::next_result` (declared
in the header, defined out of line), the cursor's `next()`. On an open scan it
fetches: a row makes the cursor `RowReady` with `m_next_row` on that row,
end-of-data makes it `Exhausted`. In every other state, and without an
active cursor, it is a no-op that returns no row. -/
def next_result (c : ScanCursor) : NextResult × ScanCursor :=
  match c.state with
  | ScanState.Initialized | ScanState.Fetching | ScanState.RowReady =>
      match c.m_active_cursor with
      | Option.none => (NextResult.none, c)
      | some op =>
          match fetch_next op with
          | (some r, op1) =>
              (NextResult.row r,
               { state := ScanState.RowReady, m_active_cursor := some op1, m_next_row := some r })
          | (Option.none, op1) =>
              (NextResult.exhausted,
               { state := ScanState.Exhausted, m_active_cursor := some op1,
                 m_next_row := Option.none })
  | _ => (NextResult.none, c)

/-- Modelled from the spec: the body of `ha_ndbcluster::close_scan` (declared
in the header, defined out of line). It releases the scan operation; closing a
closed cursor changes nothing. -/
def close_scan (c : ScanCursor) : ScanCursor :=
  { c with state := ScanState.Closed, m_active_cursor := Option.none,
           m_next_row := Option.none }

/-- The results of `n` successive `next()` calls and the cursor after them. -/
def next_results : Nat → ScanCursor → List NextResult × ScanCursor
  | 0, c => ([], c)
  | n + 1, c =>
      let r := next_result c
      let rest := next_results n r.2
      (r.1 :: rest.1, rest.2)

/-- The rows among a list of `next()` results, in order. -/
def returned_rows : List NextResult → List Row
  | [] => []
  | NextResult.row r :: rest => r :: returned_rows rest
  | _ :: rest => returned_rows rest

/-- The rows an open scan operation has still to deliver, in delivery order. -/
def scan_stream (op : NdbScanOperation) : List Row :=
  op.buffered ++ op.batches.flatten

/-- An open scan: the cursor has been initialised or is serving rows, and
`m_active_cursor` is the scan operation `op`. -/
def scan_open (c : ScanCursor) (op : NdbScanOperation) : Prop :=
  (c.state = ScanState.Initialized ∨ c.state = ScanState.RowReady) ∧
  c.m_active_cursor = some op

instance (c : ScanCursor) (op : NdbScanOperation) : Decidable (scan_open c op) := by
  unfold scan_open
  infer_instance

/-- What `n` calls of `next()` must give on a scan that has still `stream` to
deliver: its rows in order, each once, then end-of-data once, then nothing. -/
def expected_results (stream : List Row) (n : Nat) : List NextResult :=
  (stream.take n).map NextResult.row ++
    (if stream.length < n then
      NextResult.exhausted :: List.replicate (n - stream.length - 1) NextResult.none
    else [])

/-! ## Multi-range read: `read_multi_range_first`, `read_multi_range_next` -/

/-- A key range of a multi-range read (`KEY_MULTI_RANGE`): the keys from
`start_key` to `end_key`, both included. -/
structure KEY_MULTI_RANGE where
  start_key : Int
  end_key : Int
  deriving DecidableEq, Repr

/-- Whether a row's key lies in the range. -/
def range_matches (range : KEY_MULTI_RANGE) (row : Row) : Bool :=
  decide (range.start_key ≤ row.key) && decide (row.key ≤ range.end_key)

/-- The rows of the table that match the range, in table order. -/
def range_rows (table : List Row) (range : KEY_MULTI_RANGE) : List Row :=
  table.filter (range_matches range)

/-- The rows one numbered range contributes, each tagged with the range's
position in the caller's list. -/
def tagged_rows (table : List Row) (numbered : Nat × KEY_MULTI_RANGE) : List (Nat × Row) :=
  (range_rows table numbered.2).map (fun row => (numbered.1, row))

/-- The multi-range fields of the handler. `m_multi_cursor` is the result of
the round trip in progress that has not been handed out yet, each row with
the `get_range_no()` the cluster reports for it. -/
structure MultiRangeRead where
  m_multi_ranges : List KEY_MULTI_RANGE
  m_multi_range_defined_end : Nat
  m_multi_cursor : List (Nat × Row)
  m_current_range_no : Nat
  round_trips : Nat
  deriving DecidableEq, Repr

/-- One round trip of the multi-range read: the ranges from
`m_multi_range_defined_end` on that fit under the batching threshold
(`fits` of them) are defined and executed, and `m_multi_range_defined_end`
moves one past the last of them. The cluster is taken to complete the ranges
of a round in the caller's order, each range in table order. -/
def multi_range_round (fits : Nat → Nat) (table : List Row) (s : MultiRangeRead) :
    MultiRangeRead :=
  let first := s.m_multi_range_defined_end
  let count := fits first
  { s with
    m_multi_range_defined_end := min (first + count) s.m_multi_ranges.length
    m_multi_cursor := ((s.m_multi_ranges.enum.drop first).take count).flatMap (tagged_rows table)
    round_trips := s.round_trips + 1 }

/-- Modelled from the spec: the body of
`ha_ndbcluster::read_multi_range_next` (declared in the header, defined out of
line). A row of the round in progress is handed out with its range number in
`m_current_range_no`; when the round is used up and ranges remain, a further
round trip is issued; when no range remains the read is at its end (`none`
row). `fuel` bounds the round trips one call may issue; the outer `none` is
fuel running out. -/
def read_multi_range_next (fits : Nat → Nat) (table : List Row) :
    Nat → MultiRangeRead → Option (Option Row × MultiRangeRead)
  | 0, _ => Option.none
  | fuel + 1, s =>
      match s.m_multi_cursor with
      | hit :: rest =>
          some (some hit.2, { s with m_multi_cursor := rest, m_current_range_no := hit.1 })
      | [] =>
          if s.m_multi_ranges.length ≤ s.m_multi_range_defined_end then
            some (Option.none, s)
          else
            read_multi_range_next fits table fuel (multi_range_round fits table s)

/-- Modelled from the spec: the body of
`ha_ndbcluster::read_multi_range_first` (declared in the header, defined out
of line). It takes over the caller's ranges with nothing defined yet and
delivers the first row as `read_multi_range_next` does. -/
def read_multi_range_first (fits : Nat → Nat) (table : List Row)
    (ranges : List KEY_MULTI_RANGE) (fuel : Nat) :
    Option (Option Row × MultiRangeRead) :=
  read_multi_range_next fits table fuel
    { m_multi_ranges := ranges, m_multi_range_defined_end := 0, m_multi_cursor := [],
      m_current_range_no := 0, round_trips := 0 }

/-- The rows a multi-range read hands out from a first result on, each with
the range reported for it (`found_range_p`, from `m_current_range_no`), until
the end of the read. `none` is fuel running out. -/
def read_multi_range_collect (fits : Nat → Nat) (table : List Row) (fuel : Nat) :
    Nat → Option (Option Row × MultiRangeRead) → Option (List (Nat × Row))
  | _, Option.none => Option.none
  | _, some (Option.none, _) => some []
  | 0, some (some _, _) => Option.none
  | n + 1, some (some row, s) =>
      (read_multi_range_collect fits table fuel n
        (read_multi_range_next fits table fuel s)).map
        (fun later => (s.m_current_range_no, row) :: later)

/-- The whole multi-range read: `read_multi_range_first` followed by
`read_multi_range_next` until the end. -/
def read_multi_range (fits : Nat → Nat) (table : List Row)
    (ranges : List KEY_MULTI_RANGE) (fuel : Nat) : Option (List (Nat × Row)) :=
  read_multi_range_collect fits table fuel fuel
    (read_multi_range_first fits table ranges fuel)

/-- The rows matching each range, each tagged with its range's position, range
by range. -/
def multi_range_matches (table : List Row) (ranges : List KEY_MULTI_RANGE) :
    List (Nat × Row) :=
  ranges.enum.flatMap (tagged_rows table)

/-- The rows a multi-range read has still to hand out: what is left of the
round in progress, then the rows of the ranges not yet defined. -/
def multi_range_pending (table : List Row) (s : MultiRangeRead) : List (Nat × Row) :=
  s.m_multi_cursor ++
    (s.m_multi_ranges.enum.drop s.m_multi_range_defined_end).flatMap (tagged_rows table)

/-! ## Conflict detection: `prepare_conflict_detection` -/

/-- The classification of a replicated write. -/
inductive ConflictOutcome where
  | Apply
  | Reject
  | Escalate
  deriving DecidableEq, Repr

/-- What the configured conflict function does with a conflicting write:
discard it, or discard it and record it for reconciliation. -/
inductive ConflictAction where
  | reject
  | escalate
  deriving DecidableEq, Repr

/-- The outcome a conflict action stands for. -/
def ConflictAction.outcome : ConflictAction → ConflictOutcome
  | ConflictAction.reject => ConflictOutcome.Reject
  | ConflictAction.escalate => ConflictOutcome.Escalate

/-- A write arriving through replication: the row image before the change
(`old_data`) and after it (`new_data`). -/
structure ReplicatedWrite where
  old_data : Row
  new_data : Row
  deriving DecidableEq, Repr

/-- Modelled from the spec: the body of
`ha_ndbcluster::prepare_conflict_detection` (declared in the header, defined
out of line). It attaches the guard to the write operation as an interpreted
predicate on the stored row: the pre-image must match. -/
def prepare_conflict_detection (old_data : Row) : Row → Bool :=
  fun stored => decide (stored = old_data)

/-- The row the guarded write meets when it executes: the stored row, or what
a concurrent write that got in before it left there. -/
def row_at_execution (stored : Option Row) (concurrent : Option (Option Row)) :
    Option Row :=
  match concurrent with
  | some written => written
  | none => stored

/-- Modelled from the spec: execution of a replicated write with its guard, in
one transaction. A guard that cannot be evaluated (the row is gone) is
`Escalate`; a guard that fails is the conflict action's outcome and the write
is discarded; a guard that holds is `Apply` and the write proceeds. The
result is the classification and the row stored afterwards. -/
def apply_replicated_write (action : ConflictAction) (stored : Option Row)
    (concurrent : Option (Option Row)) (w : ReplicatedWrite) :
    ConflictOutcome × Option Row :=
  match row_at_execution stored concurrent with
  | none => (ConflictOutcome.Escalate, none)
  | some row =>
      if prepare_conflict_detection w.old_data row then
        (ConflictOutcome.Apply, some w.new_data)
      else (action.outcome, some row)

/-! ## Index descriptors: `NDB_INDEX_TYPE`, `NDB_INDEX_STATUS`, `NDB_INDEX_DATA` -/

/-- The enumeration `NDB_INDEX_TYPE`. -/
inductive NDB_INDEX_TYPE where
  | UNDEFINED_INDEX
  | PRIMARY_KEY_INDEX
  | PRIMARY_KEY_ORDERED_INDEX
  | UNIQUE_INDEX
  | UNIQUE_ORDERED_INDEX
  | ORDERED_INDEX
  deriving DecidableEq, Repr

/-- The numeric value the header gives each `NDB_INDEX_TYPE` enumerator. -/
def NDB_INDEX_TYPE.value : NDB_INDEX_TYPE → Nat
  | NDB_INDEX_TYPE.UNDEFINED_INDEX => 0
  | NDB_INDEX_TYPE.PRIMARY_KEY_INDEX => 1
  | NDB_INDEX_TYPE.PRIMARY_KEY_ORDERED_INDEX => 2
  | NDB_INDEX_TYPE.UNIQUE_INDEX => 3
  | NDB_INDEX_TYPE.UNIQUE_ORDERED_INDEX => 4
  | NDB_INDEX_TYPE.ORDERED_INDEX => 5

/-- The enumeration `NDB_INDEX_STATUS`. -/
inductive NDB_INDEX_STATUS where
  | UNDEFINED
  | ACTIVE
  | TO_BE_DROPPED
  deriving DecidableEq, Repr

/-- The numeric value the header gives each `NDB_INDEX_STATUS` enumerator. -/
def NDB_INDEX_STATUS.value : NDB_INDEX_STATUS → Nat
  | NDB_INDEX_STATUS.UNDEFINED => 0
  | NDB_INDEX_STATUS.ACTIVE => 1
  | NDB_INDEX_STATUS.TO_BE_DROPPED => 2

/-- The descriptor `NDB_INDEX_DATA` of one index: its type and status, the
handles of the index objects (`none` is a NULL pointer) and whether a unique
index has nullable parts. The attribute map and the `NdbRecord` pointers
play no part below. -/
structure NDB_INDEX_DATA where
  type : NDB_INDEX_TYPE
  status : NDB_INDEX_STATUS
  index : Option Nat
  unique_index : Option Nat
  null_in_unique_index : Bool
  deriving DecidableEq, Repr

/-- The five kinds of index the data model of the specification lists. -/
def spec_index_types : List NDB_INDEX_TYPE :=
  [NDB_INDEX_TYPE.PRIMARY_KEY_INDEX, NDB_INDEX_TYPE.PRIMARY_KEY_ORDERED_INDEX,
   NDB_INDEX_TYPE.UNIQUE_INDEX, NDB_INDEX_TYPE.UNIQUE_ORDERED_INDEX,
   NDB_INDEX_TYPE.ORDERED_INDEX]

/-- All enumerators of `NDB_INDEX_TYPE`, in the order of the header. -/
def all_index_types : List NDB_INDEX_TYPE :=
  NDB_INDEX_TYPE.UNDEFINED_INDEX :: spec_index_types

/-- All enumerators of `NDB_INDEX_STATUS`, in the order of the header. -/
def all_index_statuses : List NDB_INDEX_STATUS :=
  [NDB_INDEX_STATUS.UNDEFINED, NDB_INDEX_STATUS.ACTIVE, NDB_INDEX_STATUS.TO_BE_DROPPED]

/-! ## Error classification: `ha_ndbcluster::is_fatal_error` -/

/-- Member `ha_ndbcluster::is_fatal_error(int error, uint flags)`:
```
if (!handler::is_fatal_error(error, flags) ||
    error == HA_ERR_NO_PARTITION_FOUND)
  return FALSE;
return TRUE;
```
The base class member `handler::is_fatal_error` and the error code
`HA_ERR_NO_PARTITION_FOUND`, both defined outside the header, are
parameters. -/
def is_fatal_error (handler_is_fatal_error : Int → Nat → Bool)
    (HA_ERR_NO_PARTITION_FOUND : Int) (error : Int) (flags : Nat) : Bool :=
  if !(handler_is_fatal_error error flags) || error == HA_ERR_NO_PARTITION_FOUND then
    false
  else true

/-! ## Hidden columns: `get_hidden_key_column`, `get_partition_id_column` -/

/-- A column of the cluster table (`NdbDictionary::Column`). -/
structure NdbColumn where
  name : String
  deriving DecidableEq, Repr

/-- The cluster's table object (`NdbDictionary::Table`): its columns in
attribute order. -/
structure NdbTable where
  columns : List NdbColumn
  deriving DecidableEq, Repr

/-- Library call `NdbDictionary::Table::getColumn(attrId)`: the column with
that attribute id, NULL (`none`) when the table has none. -/
def NdbTable.getColumn (m_table : NdbTable) (attrId : Nat) : Option NdbColumn :=
  m_table.columns[attrId]?

/-- The fields of `TABLE_SHARE` the accessors read: the number of user
columns `fields` and the number of the primary key `primary_key`, both
`uint`. -/
structure TABLE_SHARE where
  fields : Nat
  primary_key : Nat
  deriving DecidableEq, Repr

/-- Member `ha_ndbcluster::get_hidden_key_column()`:
`return m_table->getColumn(table_share->fields);` -/
def get_hidden_key_column (m_table : NdbTable) (table_share : TABLE_SHARE) :
    Option NdbColumn :=
  m_table.getColumn table_share.fields

/-- The local `Uint32 index` of `get_partition_id_column`:
`table_share->fields + (table_share->primary_key == MAX_KEY)`, the comparison
counting 1 when it holds. `MAX_KEY`, defined outside the header, is a
parameter. -/
def partition_id_column_index (MAX_KEY : Nat) (table_share : TABLE_SHARE) : Nat :=
  uint32 (table_share.fields + (if table_share.primary_key = MAX_KEY then 1 else 0))

/-- Member `ha_ndbcluster::get_partition_id_column()`:
```
Uint32 index= table_share->fields + (table_share->primary_key == MAX_KEY);
return m_table->getColumn(index);
``` -/
def get_partition_id_column (MAX_KEY : Nat) (m_table : NdbTable)
    (table_share : TABLE_SHARE) : Option NdbColumn :=
  m_table.getColumn (partition_id_column_index MAX_KEY table_share)

/-! ## Bitmap buffers: `m_bitmap_buf`, `m_pk_bitmap_buf` -/

/-- The declared length of `m_bitmap_buf`:
`(NDB_MAX_ATTRIBUTES_IN_TABLE + 8*sizeof(my_bitmap_map) - 1) / (8*sizeof(my_bitmap_map))`.
The attribute limit and the size of a bitmap word, both defined outside the
header, are parameters. -/
def m_bitmap_buf_length (NDB_MAX_ATTRIBUTES_IN_TABLE sizeof_my_bitmap_map : Nat) : Nat :=
  (NDB_MAX_ATTRIBUTES_IN_TABLE + 8 * sizeof_my_bitmap_map - 1) / (8 * sizeof_my_bitmap_map)

/-- The declared length of `m_pk_bitmap_buf`, the same expression as for
`m_bitmap_buf`. -/
def m_pk_bitmap_buf_length (NDB_MAX_ATTRIBUTES_IN_TABLE sizeof_my_bitmap_map : Nat) : Nat :=
  (NDB_MAX_ATTRIBUTES_IN_TABLE + 8 * sizeof_my_bitmap_map - 1) / (8 * sizeof_my_bitmap_map)

/-- The word of a bitmap buffer that holds the bit of attribute `i`. -/
def bitmap_word_index (sizeof_my_bitmap_map : Nat) (i : Nat) : Nat :=
  i / (8 * sizeof_my_bitmap_map)

/-! ## Frame of the flag setters -/

/-- Two `uint32` flag words agree on every bit but bit `own`. -/
def flags_agree_except (own : Nat) (before after : Nat) : Prop :=
  ∀ i, i < 32 → i ≠ own → after.testBit i = before.testBit i

instance (own before after : Nat) : Decidable (flags_agree_except own before after) := by
  unfold flags_agree_except
  infer_instance

/-- What a flag setter that owns bit `own` leaves alone, `other1` and `other2`
being the getters of the two other binlog flags: every other bit of
`flags`, every other field of the share, the `NSF_HIDDEN_PK` and
`NSF_BLOB_FLAG` bits, and what the two other getters return. -/
def setter_frame (own : Nat) (other1 other2 : NDB_SHARE → Bool)
    (before after : NDB_SHARE) : Prop :=
  flags_agree_except own before.flags after.flags ∧
  { after with flags := before.flags } = before ∧
  after.flags &&& NSF_HIDDEN_PK = before.flags &&& NSF_HIDDEN_PK ∧
  after.flags &&& NSF_BLOB_FLAG = before.flags &&& NSF_BLOB_FLAG ∧
  other1 after = other1 before ∧
  other2 after = other2 before

instance (own : Nat) (other1 other2 : NDB_SHARE → Bool) (before after : NDB_SHARE) :
    Decidable (setter_frame own other1 other2 before after) := by
  unfold setter_frame
  infer_instance

/-! # Properties -/

/-! ## Transaction start -/

/-- With an active transaction `get_transaction` hands it back and calls
nothing. -/
theorem get_transaction_of_active (start : Thd_ndb → Int → StartResult)
    (thd : Thd_ndb) (h : Nat) (error : Int) (active : thd.trans = some h) :
    get_transaction start thd error
      = { ret := some h, thd_ndb := thd, error := error, calls := [] } := by
  simp [get_transaction, active]

/-- With an active transaction `get_transaction_part_id` hands it back and
calls nothing, whatever the partition. -/
theorem get_transaction_part_id_of_active
    (start_part : Nat → Thd_ndb → Int → StartResult)
    (thd : Thd_ndb) (h : Nat) (part_id : Nat) (error : Int)
    (active : thd.trans = some h) :
    get_transaction_part_id start_part thd part_id error
      = { ret := some h, thd_ndb := thd, error := error, calls := [] } := by
  simp [get_transaction_part_id, active]

/-- Without an active transaction `get_transaction` is one call of
`start_transaction`. -/
theorem get_transaction_of_idle (start : Thd_ndb → Int → StartResult)
    (thd : Thd_ndb) (error : Int) (idle : thd.trans = none) :
    get_transaction start thd error
      = { ret := (start thd error).ret, thd_ndb := (start thd error).thd_ndb,
          error := (start thd error).error, calls := [StartCall.start_transaction] } := by
  simp [get_transaction, idle]

/-- Without an active transaction `get_transaction_part_id` is one call of
`start_transaction_part_id` with the same partition. -/
theorem get_transaction_part_id_of_idle
    (start_part : Nat → Thd_ndb → Int → StartResult)
    (thd : Thd_ndb) (part_id : Nat) (error : Int) (idle : thd.trans = none) :
    get_transaction_part_id start_part thd part_id error
      = { ret := (start_part part_id thd error).ret,
          thd_ndb := (start_part part_id thd error).thd_ndb,
          error := (start_part part_id thd error).error,
          calls := [StartCall.start_transaction_part_id part_id] } := by
  simp [get_transaction_part_id, idle]

/-- A start that returns a handle has made it the session's transaction. -/
theorem start_transaction_stores (answer : ClusterAnswer) (thd : Thd_ndb)
    (error : Int) (h : Nat) (ok : (start_transaction answer thd error).ret = some h) :
    (start_transaction answer thd error).thd_ndb.trans = some h := by
  cases answer <;> simp_all [start_transaction]

/-- A successful `get_transaction` leaves the returned handle as the
session's transaction. -/
theorem get_transaction_holds (answer : ClusterAnswer) (thd : Thd_ndb)
    (error : Int) (h : Nat)
    (ok : (get_transaction (start_transaction answer) thd error).ret = some h) :
    (get_transaction (start_transaction answer) thd error).thd_ndb.trans = some h := by
  cases htr : thd.trans with
  | some h0 =>
      rw [get_transaction_of_active _ thd h0 error htr] at ok ⊢
      simp only [Option.some.injEq] at ok
      simpa [ok] using htr
  | none =>
      rw [get_transaction_of_idle _ thd error htr] at ok ⊢
      exact start_transaction_stores answer thd error h ok

/-- A successful `get_transaction_part_id` leaves the returned handle as the
session's transaction. -/
theorem get_transaction_part_id_holds (answer : Nat → ClusterAnswer)
    (thd : Thd_ndb) (part_id : Nat) (error : Int) (h : Nat)
    (ok : (get_transaction_part_id (start_transaction_part_id answer) thd part_id
            error).ret = some h) :
    (get_transaction_part_id (start_transaction_part_id answer) thd part_id
      error).thd_ndb.trans = some h := by
  cases htr : thd.trans with
  | some h0 =>
      rw [get_transaction_part_id_of_active _ thd h0 part_id error htr] at ok ⊢
      simp only [Option.some.injEq] at ok
      simpa [ok] using htr
  | none =>
      rw [get_transaction_part_id_of_idle _ thd part_id error htr] at ok ⊢
      exact start_transaction_stores (answer part_id) thd error h ok

/-- C1: for every session whose `trans` handle is non-null and every part_id,
`get_transaction(error)` and `get_transaction_part_id(part_id, error)` return
exactly the handle already held, make no call to `start_transaction` or
`start_transaction_part_id`, and leave the session (its `trans` field
included) and the `error` out-parameter unchanged; the partition hint has no
influence. -/
theorem get_transaction_reuses_active_handle
    (start : Thd_ndb → Int → StartResult)
    (start_part : Nat → Thd_ndb → Int → StartResult)
    (thd : Thd_ndb) (h : Nat) (part_id : Nat) (error : Int)
    (active : thd.trans = some h) :
    (get_transaction start thd error).ret = some h ∧
    (get_transaction start thd error).calls = [] ∧
    (get_transaction start thd error).thd_ndb = thd ∧
    (get_transaction start thd error).thd_ndb.trans = some h ∧
    (get_transaction start thd error).error = error ∧
    (get_transaction_part_id start_part thd part_id error).ret = some h ∧
    (get_transaction_part_id start_part thd part_id error).calls = [] ∧
    (get_transaction_part_id start_part thd part_id error).thd_ndb = thd ∧
    (get_transaction_part_id start_part thd part_id error).thd_ndb.trans = some h ∧
    (get_transaction_part_id start_part thd part_id error).error = error := by
  rw [get_transaction_of_active start thd h error active,
    get_transaction_part_id_of_active start_part thd h part_id error active]
  simp [active]

/-- Witness for C1: a session holding handle 7, asked with partition 3 and
start functions that would hand out handle 99 and overwrite the error. -/
theorem get_transaction_reuses_active_handle_witness :
    (Thd_ndb.mk (some 7) [] 0 250 0).trans = some 7 ∧
    (get_transaction (fun t _ => ⟨some 99, { t with trans := some 99 }, 5⟩)
      (Thd_ndb.mk (some 7) [] 0 250 0) 0).ret = some 7 ∧
    (get_transaction_part_id (fun _ t _ => ⟨some 99, { t with trans := some 99 }, 5⟩)
      (Thd_ndb.mk (some 7) [] 0 250 0) 3 0).ret = some 7 :=
  ⟨rfl,
   (get_transaction_reuses_active_handle
      (fun t _ => ⟨some 99, { t with trans := some 99 }, 5⟩)
      (fun _ t _ => ⟨some 99, { t with trans := some 99 }, 5⟩)
      (Thd_ndb.mk (some 7) [] 0 250 0) 7 3 0 rfl).1,
   (get_transaction_reuses_active_handle
      (fun t _ => ⟨some 99, { t with trans := some 99 }, 5⟩)
      (fun _ t _ => ⟨some 99, { t with trans := some 99 }, 5⟩)
      (Thd_ndb.mk (some 7) [] 0 250 0) 7 3 0 rfl).2.2.2.2.2.1⟩

/-- C2: at most one active transaction handle per session. For every session
state, when a first `get_transaction` or `get_transaction_part_id` call (any
hint, any cluster answer) succeeds with handle `h`, the session holds `h`,
and a second call of either kind right after it (any hint, any cluster
answer, no commit or abort in between) returns the same `h`, makes no start
call and leaves the session as the first call left it. -/
theorem at_most_one_active_transaction
    (a1 a2 : ClusterAnswer) (p1 p2 : Nat → ClusterAnswer)
    (thd : Thd_ndb) (part1 part2 : Nat) (e1 e2 : Int) (h : Nat) (first : GetResult)
    (called : first = get_transaction (start_transaction a1) thd e1 ∨
      first = get_transaction_part_id (start_transaction_part_id p1) thd part1 e1)
    (ok : first.ret = some h) :
    first.thd_ndb.trans = some h ∧
    get_transaction (start_transaction a2) first.thd_ndb e2
      = { ret := some h, thd_ndb := first.thd_ndb, error := e2, calls := [] } ∧
    get_transaction_part_id (start_transaction_part_id p2) first.thd_ndb part2 e2
      = { ret := some h, thd_ndb := first.thd_ndb, error := e2, calls := [] } := by
  have held : first.thd_ndb.trans = some h := by
    rcases called with rfl | rfl
    · exact get_transaction_holds a1 thd e1 h ok
    · exact get_transaction_part_id_holds p1 thd part1 e1 h ok
  exact ⟨held, get_transaction_of_active _ _ h e2 held,
    get_transaction_part_id_of_active _ _ h part2 e2 held⟩

/-- Witness for C2: an idle session, a first start answered with handle 7, a
second call for which the cluster would answer with handle 8. -/
theorem at_most_one_active_transaction_witness :
    (get_transaction (start_transaction (ClusterAnswer.started 7))
      (Thd_ndb.mk none [] 0 250 0) 0).ret = some 7 ∧
    get_transaction (start_transaction (ClusterAnswer.started 8))
      (get_transaction (start_transaction (ClusterAnswer.started 7))
        (Thd_ndb.mk none [] 0 250 0) 0).thd_ndb 0
      = { ret := some 7, thd_ndb := Thd_ndb.mk (some 7) [] 0 250 0, error := 0,
          calls := [] } :=
  ⟨rfl,
   (at_most_one_active_transaction (ClusterAnswer.started 7) (ClusterAnswer.started 8)
      (fun _ => ClusterAnswer.started 7) (fun _ => ClusterAnswer.started 8)
      (Thd_ndb.mk none [] 0 250 0) 1 2 0 0 7
      (get_transaction (start_transaction (ClusterAnswer.started 7))
        (Thd_ndb.mk none [] 0 250 0) 0)
      (Or.inl rfl) rfl).2.1⟩

/-- C8: for every session with no active transaction, `get_transaction(error)`
returns exactly what `start_transaction(error)` returns and
`get_transaction_part_id(part_id, error)` exactly what
`start_transaction_part_id(part_id, error)` returns for the same part_id:
handle, session and error code are passed through unchanged after exactly one
start call, so a failed start (NULL handle, error code set) reaches the
caller as it is. -/
theorem get_transaction_passes_start_through
    (start : Thd_ndb → Int → StartResult)
    (start_part : Nat → Thd_ndb → Int → StartResult)
    (thd : Thd_ndb) (part_id : Nat) (error : Int) (idle : thd.trans = none) :
    (get_transaction start thd error).ret = (start thd error).ret ∧
    (get_transaction start thd error).error = (start thd error).error ∧
    (get_transaction start thd error).thd_ndb = (start thd error).thd_ndb ∧
    (get_transaction start thd error).calls = [StartCall.start_transaction] ∧
    (get_transaction_part_id start_part thd part_id error).ret
      = (start_part part_id thd error).ret ∧
    (get_transaction_part_id start_part thd part_id error).error
      = (start_part part_id thd error).error ∧
    (get_transaction_part_id start_part thd part_id error).thd_ndb
      = (start_part part_id thd error).thd_ndb ∧
    (get_transaction_part_id start_part thd part_id error).calls
      = [StartCall.start_transaction_part_id part_id] := by
  rw [get_transaction_of_idle start thd error idle,
    get_transaction_part_id_of_idle start_part thd part_id error idle]
  simp

/-- Witness for C8: an idle session whose start is refused with error code
4009 (no connection); the caller gets NULL and 4009. -/
theorem get_transaction_passes_start_through_witness :
    (Thd_ndb.mk none [] 0 250 0).trans = none ∧
    (get_transaction (start_transaction (ClusterAnswer.noConnection 4009))
      (Thd_ndb.mk none [] 0 250 0) 0).ret = none ∧
    (get_transaction (start_transaction (ClusterAnswer.noConnection 4009))
      (Thd_ndb.mk none [] 0 250 0) 0).error = 4009 :=
  ⟨rfl,
   (get_transaction_passes_start_through
      (start_transaction (ClusterAnswer.noConnection 4009))
      (start_transaction_part_id (fun _ => ClusterAnswer.noConnection 4009))
      (Thd_ndb.mk none [] 0 250 0) 3 0 rfl).1,
   (get_transaction_passes_start_through
      (start_transaction (ClusterAnswer.noConnection 4009))
      (start_transaction_part_id (fun _ => ClusterAnswer.noConnection 4009))
      (Thd_ndb.mk none [] 0 250 0) 3 0 rfl).2.1⟩

/-! ## Share state and its mutex -/

/-- On a share whose mutex is free, `get_ndb_share_state` returns the state,
leaves the share as it was and locks, reads, unlocks. -/
theorem get_ndb_share_state_of_free (share : NDB_SHARE) (free : share.mutex = false) :
    get_ndb_share_state share
      = some { ret := share.state, share := share,
               trace := [ShareEvent.mutex_lock, ShareEvent.read_state true,
                         ShareEvent.mutex_unlock] } := by
  cases share
  simp_all [get_ndb_share_state, pthread_mutex_lock, pthread_mutex_unlock, read_share_state]

/-- On a share whose mutex is free, `set_ndb_share_state` stores the state,
changes nothing else and locks, writes, unlocks. -/
theorem set_ndb_share_state_of_free (share : NDB_SHARE) (state : NDB_SHARE_STATE)
    (free : share.mutex = false) :
    set_ndb_share_state share state
      = some { ret := (), share := { share with state := state },
               trace := [ShareEvent.mutex_lock, ShareEvent.write_state true,
                         ShareEvent.mutex_unlock] } := by
  cases share
  simp_all [set_ndb_share_state, pthread_mutex_lock, pthread_mutex_unlock, write_share_state]

/-- A sequence of `set_ndb_share_state` calls on a free share returns and
leaves the state of the last call. -/
theorem set_ndb_share_state_seq_of_free (states : List NDB_SHARE_STATE) :
    ∀ share : NDB_SHARE, share.mutex = false →
      set_ndb_share_state_seq share states
        = some { share with state := states.getLastD share.state } := by
  induction states with
  | nil => intro share _; rfl
  | cons st rest ih =>
      intro share free
      rw [set_ndb_share_state_seq, set_ndb_share_state_of_free share st free]
      simp only
      rw [ih { share with state := st } free]
      cases rest <;> simp [List.getLastD]

/-- C3, as the code has it: `set_ndb_share_state` overwrites the state with
its argument. For every share with a free mutex and every sequence of
`set_ndb_share_state` calls, all calls return, the share ends in the state of
the last call (its own state when there is no call) with every other field
untouched, and `get_ndb_share_state` then returns that state; so a state
that is not `NSS_INITIAL` stays away from `NSS_INITIAL` through every
sequence of calls none of which passes `NSS_INITIAL`. -/
theorem set_ndb_share_state_last_call_wins (share : NDB_SHARE)
    (states : List NDB_SHARE_STATE) (free : share.mutex = false) :
    set_ndb_share_state_seq share states
      = some { share with state := states.getLastD share.state } ∧
    Option.map ShareRun.ret
        (get_ndb_share_state { share with state := states.getLastD share.state })
      = some (states.getLastD share.state) ∧
    (share.state ≠ NDB_SHARE_STATE.NSS_INITIAL →
      NDB_SHARE_STATE.NSS_INITIAL ∉ states →
      states.getLastD share.state ≠ NDB_SHARE_STATE.NSS_INITIAL) := by
  refine ⟨set_ndb_share_state_seq_of_free states share free, ?_, ?_⟩
  · rw [get_ndb_share_state_of_free { share with state := states.getLastD share.state } free]
    rfl
  · intro h0 hall
    cases hs : states.getLast? with
    | none =>
        have : states = [] := List.getLast?_eq_none_iff.mp hs
        subst this
        simpa using h0
    | some l =>
        have hmem : l ∈ states := List.mem_of_getLast?_eq_some hs
        have hl : states.getLastD share.state = l := by
          rw [List.getLastD_eq_getLast?, hs]; rfl
        rw [hl]
        intro hcontra
        exact hall (hcontra ▸ hmem)

/-- Witness for C3 as amended: a dropped share altered twice stays away from
`NSS_INITIAL`. -/
theorem set_ndb_share_state_last_call_wins_witness :
    (NDB_SHARE.mk NDB_SHARE_STATE.NSS_DROPPED false "t1" 1 0 0 0 0).mutex = false ∧
    set_ndb_share_state_seq (NDB_SHARE.mk NDB_SHARE_STATE.NSS_DROPPED false "t1" 1 0 0 0 0)
        [NDB_SHARE_STATE.NSS_ALTERED, NDB_SHARE_STATE.NSS_DROPPED]
      = some (NDB_SHARE.mk NDB_SHARE_STATE.NSS_DROPPED false "t1" 1 0 0 0 0) :=
  ⟨rfl,
   (set_ndb_share_state_last_call_wins
      (NDB_SHARE.mk NDB_SHARE_STATE.NSS_DROPPED false "t1" 1 0 0 0 0)
      [NDB_SHARE_STATE.NSS_ALTERED, NDB_SHARE_STATE.NSS_DROPPED] rfl).1⟩

/-- Counterexample to C3 as stated: a share set to `NSS_DROPPED` and then to
`NSS_INITIAL` is in state `NSS_INITIAL` again, and `get_ndb_share_state`
returns `NSS_INITIAL`. -/
theorem set_ndb_share_state_reverts :
    Option.map ShareRun.share
        (set_ndb_share_state (NDB_SHARE.mk NDB_SHARE_STATE.NSS_INITIAL false "t1" 1 0 0 0 0)
          NDB_SHARE_STATE.NSS_DROPPED)
      = some (NDB_SHARE.mk NDB_SHARE_STATE.NSS_DROPPED false "t1" 1 0 0 0 0) ∧
    Option.map ShareRun.share
        (set_ndb_share_state (NDB_SHARE.mk NDB_SHARE_STATE.NSS_DROPPED false "t1" 1 0 0 0 0)
          NDB_SHARE_STATE.NSS_INITIAL)
      = some (NDB_SHARE.mk NDB_SHARE_STATE.NSS_INITIAL false "t1" 1 0 0 0 0) ∧
    Option.map ShareRun.ret
        (get_ndb_share_state (NDB_SHARE.mk NDB_SHARE_STATE.NSS_INITIAL false "t1" 1 0 0 0 0))
      = some NDB_SHARE_STATE.NSS_INITIAL ∧
    set_ndb_share_state_seq (NDB_SHARE.mk NDB_SHARE_STATE.NSS_INITIAL false "t1" 1 0 0 0 0)
        [NDB_SHARE_STATE.NSS_DROPPED, NDB_SHARE_STATE.NSS_INITIAL]
      = some (NDB_SHARE.mk NDB_SHARE_STATE.NSS_INITIAL false "t1" 1 0 0 0 0) :=
  ⟨rfl, rfl, rfl, rfl⟩

/-- C9: with the share mutex as explicit lock state, on a share whose mutex
is free both accessors return; `set_ndb_share_state` writes `share->state`
and `get_ndb_share_state` reads it only with the mutex held; each acquires
the mutex exactly once and releases it exactly once, the access lying between
the two; and the mutex is free again afterwards. -/
theorem share_state_accessed_under_mutex (share : NDB_SHARE)
    (state : NDB_SHARE_STATE) (free : share.mutex = false) :
    Option.map ShareRun.trace (get_ndb_share_state share)
      = some [ShareEvent.mutex_lock, ShareEvent.read_state true, ShareEvent.mutex_unlock] ∧
    Option.map ShareRun.trace (set_ndb_share_state share state)
      = some [ShareEvent.mutex_lock, ShareEvent.write_state true, ShareEvent.mutex_unlock] ∧
    Option.map (fun run => accessesUnderMutex run.trace) (get_ndb_share_state share)
      = some true ∧
    Option.map (fun run => accessesUnderMutex run.trace) (set_ndb_share_state share state)
      = some true ∧
    Option.map (fun run => (countEvent ShareEvent.mutex_lock run.trace,
        countEvent ShareEvent.mutex_unlock run.trace)) (get_ndb_share_state share)
      = some (1, 1) ∧
    Option.map (fun run => (countEvent ShareEvent.mutex_lock run.trace,
        countEvent ShareEvent.mutex_unlock run.trace)) (set_ndb_share_state share state)
      = some (1, 1) ∧
    Option.map (fun run => run.share.mutex) (get_ndb_share_state share) = some false ∧
    Option.map (fun run => run.share.mutex) (set_ndb_share_state share state)
      = some false := by
  rw [get_ndb_share_state_of_free share free, set_ndb_share_state_of_free share state free]
  simp [accessesUnderMutex, countEvent, free]

/-- Witness for C9: a share with a free mutex, set to `NSS_ALTERED`. -/
theorem share_state_accessed_under_mutex_witness :
    (NDB_SHARE.mk NDB_SHARE_STATE.NSS_INITIAL false "t1" 1 0 0 0 0).mutex = false ∧
    Option.map ShareRun.trace
        (set_ndb_share_state (NDB_SHARE.mk NDB_SHARE_STATE.NSS_INITIAL false "t1" 1 0 0 0 0)
          NDB_SHARE_STATE.NSS_ALTERED)
      = some [ShareEvent.mutex_lock, ShareEvent.write_state true, ShareEvent.mutex_unlock] :=
  ⟨rfl,
   (share_state_accessed_under_mutex
      (NDB_SHARE.mk NDB_SHARE_STATE.NSS_INITIAL false "t1" 1 0 0 0 0)
      NDB_SHARE_STATE.NSS_ALTERED rfl).2.1⟩

/-! ## Binary-log policy flags -/

/-- Setting bit `k` of a `uint32` makes the test of that bit succeed. -/
theorem uint32_or_and_bit (x k : Nat) (hk : k < 32) :
    uint32 (x ||| 2 ^ k) &&& 2 ^ k = 2 ^ k := by
  unfold uint32
  apply Nat.eq_of_testBit_eq
  intro i
  simp only [Nat.testBit_and, Nat.testBit_mod_two_pow, Nat.testBit_or, Nat.testBit_two_pow]
  by_cases h : k = i
  · subst h; simp [hk]
  · simp [h]

/-- Clearing bit `k` of a `uint32` makes the test of that bit fail. -/
theorem uint32_and_not_and_bit (x k : Nat) (hk : k < 32) :
    uint32 (x &&& not32 (2 ^ k)) &&& 2 ^ k = 0 := by
  unfold not32 uint32
  apply Nat.eq_of_testBit_eq
  intro i
  have hlt : 2 ^ k < 2 ^ 32 := Nat.pow_lt_pow_right (by norm_num) hk
  have e : 2 ^ 32 - 1 - 2 ^ k % 2 ^ 32 = 2 ^ 32 - (2 ^ k + 1) := by
    rw [Nat.mod_eq_of_lt hlt]; omega
  rw [e]
  simp only [Nat.testBit_and, Nat.testBit_mod_two_pow, Nat.testBit_two_pow, Nat.zero_testBit]
  by_cases h : k = i
  · subst h
    rw [Nat.testBit_two_pow_sub_succ hlt]
    simp
  · simp [h]

/-- C10: the binary-log policy flags round-trip through their accessors for
every initial value of `share->flags`: `get_binlog_nologging` is true after
`set_binlog_nologging` and false after `set_binlog_logging`;
`get_binlog_full` is true after `set_binlog_full` and false after
`set_binlog_updated_only`; `get_binlog_use_update` is true after
`set_binlog_use_update` and false after `set_binlog_use_write`. -/
theorem binlog_flags_round_trip (share : NDB_SHARE) :
    get_binlog_nologging (set_binlog_nologging share) = true ∧
    get_binlog_nologging (set_binlog_logging share) = false ∧
    get_binlog_full (set_binlog_full share) = true ∧
    get_binlog_full (set_binlog_updated_only share) = false ∧
    get_binlog_use_update (set_binlog_use_update share) = true ∧
    get_binlog_use_update (set_binlog_use_write share) = false := by
  have s2 := uint32_or_and_bit share.flags 2 (by norm_num)
  have c2 := uint32_and_not_and_bit share.flags 2 (by norm_num)
  have s3 := uint32_or_and_bit share.flags 3 (by norm_num)
  have c3 := uint32_and_not_and_bit share.flags 3 (by norm_num)
  have s4 := uint32_or_and_bit share.flags 4 (by norm_num)
  have c4 := uint32_and_not_and_bit share.flags 4 (by norm_num)
  norm_num at s2 c2 s3 c3 s4 c4
  simp [get_binlog_nologging, set_binlog_nologging, set_binlog_logging, get_binlog_full,
    set_binlog_full, set_binlog_updated_only, get_binlog_use_update, set_binlog_use_update,
    set_binlog_use_write, NSF_NO_BINLOG, NSF_BINLOG_FULL, NSF_BINLOG_USE_UPDATE, s2, c2, s3,
    c3, s4, c4]

/-! ## Batch buffer -/

/-- One enqueue, spelled out: the row is flushed with everything buffered
before it when the accounted bytes exceed the threshold, and is buffered
otherwise. -/
theorem enqueue_row_eq (b : BatchSession) (row : BatchedRow) :
    enqueue_row b row =
      if b.thd_ndb.m_batch_size < uint32 (b.thd_ndb.m_unsent_bytes + row.bytes) then
        { thd_ndb := { b.thd_ndb with m_batch_mem_root := []
                                      m_unsent_bytes := 0
                                      m_execute_count := uint32 (b.thd_ndb.m_execute_count + 1) }
          round_trips := b.round_trips ++ [b.thd_ndb.m_batch_mem_root ++ [row]] }
      else
        { thd_ndb := { b.thd_ndb with
                         m_batch_mem_root := b.thd_ndb.m_batch_mem_root ++ [row]
                         m_unsent_bytes := uint32 (b.thd_ndb.m_unsent_bytes + row.bytes) }
          round_trips := b.round_trips } := by
  unfold enqueue_row
  by_cases h : b.thd_ndb.m_batch_size < uint32 (b.thd_ndb.m_unsent_bytes + row.bytes)
  · simp [add_row_check_if_batch_full_size, copy_row_to_buffer, flush, h]
  · simp [add_row_check_if_batch_full_size, copy_row_to_buffer, h]

/-- One enqueue loses no row and reorders none: the rows sent and buffered
afterwards are those sent and buffered before, followed by the new row. -/
theorem enqueue_row_keeps_rows (b : BatchSession) (row : BatchedRow) :
    (enqueue_row b row).round_trips.flatten ++ (enqueue_row b row).thd_ndb.m_batch_mem_root
      = b.round_trips.flatten ++ b.thd_ndb.m_batch_mem_root ++ [row] := by
  rw [enqueue_row_eq]
  split <;> simp

/-- A sequence of enqueues loses no row and reorders none. -/
theorem enqueue_rows_keeps_rows (rows : List BatchedRow) :
    ∀ b : BatchSession,
      (enqueue_rows b rows).round_trips.flatten ++ (enqueue_rows b rows).thd_ndb.m_batch_mem_root
        = b.round_trips.flatten ++ b.thd_ndb.m_batch_mem_root ++ rows := by
  induction rows with
  | nil => intro b; simp [enqueue_rows]
  | cons row rest ih =>
      intro b
      have step := ih (enqueue_row b row)
      simp only [enqueue_rows, List.foldl_cons] at step ⊢
      rw [step, enqueue_row_keeps_rows]
      simp

/-- One enqueue keeps the byte estimate that of the arena. -/
theorem enqueue_row_accounted (b : BatchSession) (row : BatchedRow)
    (h : arena_accounted b.thd_ndb) : arena_accounted (enqueue_row b row).thd_ndb := by
  rw [enqueue_row_eq]
  unfold arena_accounted at h ⊢
  split
  · simp [uint32]
  · simp only [List.map_append, List.map_cons, List.map_nil, List.sum_append, List.sum_cons,
      List.sum_nil, Nat.add_zero]
    rw [h]
    unfold uint32
    omega

/-- A sequence of enqueues keeps the byte estimate that of the arena. -/
theorem enqueue_rows_accounted (rows : List BatchedRow) :
    ∀ b : BatchSession, arena_accounted b.thd_ndb →
      arena_accounted (enqueue_rows b rows).thd_ndb := by
  induction rows with
  | nil => intro b h; simpa [enqueue_rows] using h
  | cons row rest ih =>
      intro b h
      have step := ih (enqueue_row b row) (enqueue_row_accounted b row h)
      simpa [enqueue_rows] using step

/-- After an enqueue the byte estimate does not exceed the threshold. -/
theorem enqueue_row_bounded (b : BatchSession) (row : BatchedRow) :
    (enqueue_row b row).thd_ndb.m_unsent_bytes ≤ b.thd_ndb.m_batch_size ∧
    (enqueue_row b row).thd_ndb.m_batch_size = b.thd_ndb.m_batch_size := by
  rw [enqueue_row_eq]
  split
  · simp
  · simp only [and_true]
    omega

/-- C4: for every session and every row enqueue, the batch-full check
accounts the row's bytes in `m_unsent_bytes` and reports full exactly when
the estimated buffered bytes then exceed `m_batch_size`; a flush happens
exactly in that case, it sends everything buffered (the new row included) as
one round trip and leaves the arena empty (`m_unsent_bytes = 0`,
`m_batch_mem_root` reset); otherwise the row stays buffered and no round trip
is issued; either way the estimate is within the threshold afterwards. Over
every sequence of enqueues no row is lost or reordered, and from an empty
arena the estimate stays the byte sum of the buffered rows. Scenario: three
100-byte inserts with threshold 250 cause exactly one flush, carrying all
three rows, and the arena is empty afterwards. -/
theorem batch_full_check_triggers_flush (b : BatchSession) (row : BatchedRow)
    (rows : List BatchedRow) (trans : Option Nat) (batch_size : Nat) :
    (add_row_check_if_batch_full_size (copy_row_to_buffer b.thd_ndb row) row.bytes).1
      = decide (b.thd_ndb.m_batch_size < uint32 (b.thd_ndb.m_unsent_bytes + row.bytes)) ∧
    (add_row_check_if_batch_full_size (copy_row_to_buffer b.thd_ndb row)
        row.bytes).2.m_unsent_bytes
      = uint32 (b.thd_ndb.m_unsent_bytes + row.bytes) ∧
    enqueue_row b row =
      (if b.thd_ndb.m_batch_size < uint32 (b.thd_ndb.m_unsent_bytes + row.bytes) then
        { thd_ndb := { b.thd_ndb with m_batch_mem_root := []
                                      m_unsent_bytes := 0
                                      m_execute_count := uint32 (b.thd_ndb.m_execute_count + 1) }
          round_trips := b.round_trips ++ [b.thd_ndb.m_batch_mem_root ++ [row]] }
      else
        { thd_ndb := { b.thd_ndb with
                         m_batch_mem_root := b.thd_ndb.m_batch_mem_root ++ [row]
                         m_unsent_bytes := uint32 (b.thd_ndb.m_unsent_bytes + row.bytes) }
          round_trips := b.round_trips }) ∧
    ((enqueue_row b row).round_trips.length = b.round_trips.length + 1
      ↔ b.thd_ndb.m_batch_size < uint32 (b.thd_ndb.m_unsent_bytes + row.bytes)) ∧
    ((enqueue_row b row).round_trips = b.round_trips
      ↔ ¬ b.thd_ndb.m_batch_size < uint32 (b.thd_ndb.m_unsent_bytes + row.bytes)) ∧
    (enqueue_row b row).thd_ndb.m_unsent_bytes ≤ b.thd_ndb.m_batch_size ∧
    (enqueue_rows b rows).round_trips.flatten ++ (enqueue_rows b rows).thd_ndb.m_batch_mem_root
      = b.round_trips.flatten ++ b.thd_ndb.m_batch_mem_root ++ rows ∧
    arena_accounted
      (enqueue_rows { thd_ndb := Thd_ndb.mk trans [] 0 batch_size 0, round_trips := [] }
        rows).thd_ndb ∧
    enqueue_rows { thd_ndb := Thd_ndb.mk none [] 0 250 0, round_trips := [] }
        [BatchedRow.mk 0 100, BatchedRow.mk 1 100, BatchedRow.mk 2 100]
      = { thd_ndb := Thd_ndb.mk none [] 0 250 1,
          round_trips := [[BatchedRow.mk 0 100, BatchedRow.mk 1 100, BatchedRow.mk 2 100]] } := by
  refine ⟨by simp [add_row_check_if_batch_full_size, copy_row_to_buffer],
    by simp [add_row_check_if_batch_full_size, copy_row_to_buffer],
    enqueue_row_eq b row, ?_, ?_, (enqueue_row_bounded b row).1,
    enqueue_rows_keeps_rows rows b,
    enqueue_rows_accounted rows _ (by simp [arena_accounted, uint32]), by decide⟩
  · rw [enqueue_row_eq]
    by_cases h : b.thd_ndb.m_batch_size < uint32 (b.thd_ndb.m_unsent_bytes + row.bytes)
    · simp [h]
    · simp [h]
  · rw [enqueue_row_eq]
    by_cases h : b.thd_ndb.m_batch_size < uint32 (b.thd_ndb.m_unsent_bytes + row.bytes)
    · simp [h]
    · simp [h]

/-! ## Scan cursor -/

/-- The fetch round trip finds nothing exactly when no batch holds a row. -/
theorem fetch_batch_none (batches : List (List Row)) (h : batches.flatten = []) :
    fetch_batch batches = none := by
  induction batches with
  | nil => rfl
  | cons batch later ih =>
      cases batch with
      | nil => simpa [fetch_batch] using ih (by simpa using h)
      | cons r rs => simp at h

/-- The fetch round trip delivers the first row of what is left and keeps the
rest in order. -/
theorem fetch_batch_some (batches : List (List Row)) (r : Row) (t : List Row)
    (h : batches.flatten = r :: t) :
    ∃ rs later, fetch_batch batches = some (r, rs, later) ∧ rs ++ later.flatten = t := by
  induction batches with
  | nil => simp at h
  | cons batch later ih =>
      cases batch with
      | nil => simpa [fetch_batch] using ih (by simpa using h)
      | cons r0 rs =>
          simp only [List.flatten_cons, List.cons_append, List.cons.injEq] at h
          exact ⟨rs, later, by simp [fetch_batch, h.1], h.2⟩

/-- At end-of-data `fetch_next` delivers no row. -/
theorem fetch_next_of_empty (op : NdbScanOperation) (h : scan_stream op = []) :
    fetch_next op = (none, { buffered := [], batches := [] }) := by
  unfold scan_stream at h
  obtain ⟨hb, hf⟩ := List.append_eq_nil.mp h
  simp [fetch_next, hb, fetch_batch_none _ hf]

/-- While rows are left `fetch_next` delivers the first of them and leaves the
others to deliver. -/
theorem fetch_next_of_cons (op : NdbScanOperation) (r : Row) (t : List Row)
    (h : scan_stream op = r :: t) :
    ∃ op1, fetch_next op = (some r, op1) ∧ scan_stream op1 = t := by
  unfold scan_stream at h
  cases hb : op.buffered with
  | cons r0 rs =>
      rw [hb] at h
      simp only [List.cons_append, List.cons.injEq] at h
      exact ⟨{ op with buffered := rs }, by simp [fetch_next, hb, h.1], by
        simpa [scan_stream] using h.2⟩
  | nil =>
      rw [hb] at h
      obtain ⟨rs, later, hf, ht⟩ := fetch_batch_some op.batches r t (by simpa using h)
      exact ⟨{ buffered := rs, batches := later }, by simp [fetch_next, hb, hf], by
        simpa [scan_stream] using ht⟩

/-- On an exhausted cursor `next()` is a no-op that returns no row. -/
theorem next_result_of_exhausted (c : ScanCursor) (h : c.state = ScanState.Exhausted) :
    next_result c = (NextResult.none, c) := by
  simp [next_result, h]

/-- On an exhausted cursor any number of `next()` calls are no-ops. -/
theorem next_results_of_exhausted (n : Nat) (c : ScanCursor)
    (h : c.state = ScanState.Exhausted) :
    next_results n c = (List.replicate n NextResult.none, c) := by
  induction n with
  | zero => rfl
  | succ n ih => simp [next_results, next_result_of_exhausted c h, ih, List.replicate_succ]

/-- The results of `n` calls of `next()` on an open scan, and the cursor's
state once end-of-data has been signalled. -/
theorem next_results_of_open (n : Nat) :
    ∀ (c : ScanCursor) (op : NdbScanOperation), scan_open c op →
      (next_results n c).1 = expected_results (scan_stream op) n ∧
      ((scan_stream op).length < n → (next_results n c).2.state = ScanState.Exhausted) := by
  induction n with
  | zero => intro c op _; simp [next_results, expected_results]
  | succ n ih =>
      intro c op hopen
      obtain ⟨hstate, hcur⟩ := hopen
      cases hs : scan_stream op with
      | nil =>
          have hstep : next_result c
              = (NextResult.exhausted,
                 { state := ScanState.Exhausted,
                   m_active_cursor := some { buffered := [], batches := [] },
                   m_next_row := none }) := by
            rcases hstate with h | h <;>
              simp [next_result, h, hcur, fetch_next_of_empty op hs]
          simp [next_results, hstep, next_results_of_exhausted, expected_results]
      | cons r t =>
          obtain ⟨op1, hf, ht⟩ := fetch_next_of_cons op r t hs
          have hstep : next_result c
              = (NextResult.row r,
                 { state := ScanState.RowReady, m_active_cursor := some op1,
                   m_next_row := some r }) := by
            rcases hstate with h | h <;> simp [next_result, h, hcur, hf]
          have hrec := ih { state := ScanState.RowReady, m_active_cursor := some op1,
                            m_next_row := some r } op1 ⟨Or.inr rfl, rfl⟩
          rw [ht] at hrec
          simp only [next_results, hstep, hrec.1, List.length_cons]
          refine ⟨?_, fun hlt => hrec.2 (by omega)⟩
          unfold expected_results
          by_cases hl : t.length < n
          · have e : n + 1 - (t.length + 1) - 1 = n - t.length - 1 := by omega
            simp [hl, e]
          · simp [hl]

/-- The rows among the expected results are the first `n` rows of the stream. -/
theorem returned_rows_expected (stream : List Row) (n : Nat) :
    returned_rows (expected_results stream n) = stream.take n := by
  have hrows : ∀ l : List Row, ∀ tail : List NextResult,
      returned_rows (l.map NextResult.row ++ tail) = l ++ returned_rows tail := by
    intro l tail
    induction l with
    | nil => rfl
    | cons a l ih => simp [returned_rows, ih]
  have hnone : ∀ k : Nat, returned_rows (List.replicate k NextResult.none) = [] := by
    intro k
    induction k with
    | zero => rfl
    | succ k ih => simp [List.replicate_succ, returned_rows, ih]
  unfold expected_results
  rw [hrows]
  split <;> simp [returned_rows, hnone]

/-- End-of-data occurs among the expected results at most once, and once when
more calls are made than rows are left. -/
theorem count_exhausted_expected (stream : List Row) (n : Nat) :
    (expected_results stream n).count NextResult.exhausted
      = if stream.length < n then 1 else 0 := by
  have hrows : ∀ l : List Row, (l.map NextResult.row).count NextResult.exhausted = 0 := by
    intro l
    induction l with
    | nil => rfl
    | cons a l ih => simp [List.count_cons, ih]
  have hnone : ∀ k : Nat,
      (List.replicate k NextResult.none).count NextResult.exhausted = 0 := by
    intro k
    simp [List.count_replicate]
  unfold expected_results
  rw [List.count_append, hrows]
  split <;> simp [List.count_cons, hnone]

/-- C5: for every open scan and every number `n` of `next()` calls, the
results are the rows the scan has to deliver, in delivery order and each
delivered once (so no row of a duplicate-free stream is returned twice),
then end-of-data (`Exhausted`) exactly once as soon as the rows are used up,
then nothing; the cursor is then in state `Exhausted`, and on an exhausted
cursor, as on a closed one, `next()` changes nothing and returns no row. -/
theorem scan_cursor_delivers_each_row_once (c : ScanCursor) (op : NdbScanOperation)
    (n : Nat) (is_open : scan_open c op) :
    (next_results n c).1 = expected_results (scan_stream op) n ∧
    returned_rows (next_results n c).1 = (scan_stream op).take n ∧
    ((scan_stream op).Nodup → (returned_rows (next_results n c).1).Nodup) ∧
    (next_results n c).1.count NextResult.exhausted ≤ 1 ∧
    ((next_results n c).1.count NextResult.exhausted = 1 ↔ (scan_stream op).length < n) ∧
    ((scan_stream op).length < n →
      (next_results n c).2.state = ScanState.Exhausted ∧
      next_result (next_results n c).2 = (NextResult.none, (next_results n c).2)) ∧
    next_result (close_scan (next_results n c).2)
      = (NextResult.none, close_scan (next_results n c).2) := by
  obtain ⟨hres, hstate⟩ := next_results_of_open n c op is_open
  rw [hres, returned_rows_expected, count_exhausted_expected]
  refine ⟨rfl, rfl, fun hnd => hnd.sublist (List.take_sublist n _), ?_, ?_, ?_, ?_⟩
  · split <;> simp
  · split <;> simp_all
  · intro hlt
    exact ⟨hstate hlt, next_result_of_exhausted _ (hstate hlt)⟩
  · simp [next_result, close_scan]

/-- Witness for C5: a scan with one buffered row and two batches, one of them
empty, read with five calls. -/
theorem scan_cursor_delivers_each_row_once_witness :
    scan_open
      { state := ScanState.Initialized,
        m_active_cursor := some { buffered := [Row.mk 1 10],
                                  batches := [[], [Row.mk 2 20, Row.mk 3 30]] },
        m_next_row := none }
      { buffered := [Row.mk 1 10], batches := [[], [Row.mk 2 20, Row.mk 3 30]] } ∧
    (next_results 5
      { state := ScanState.Initialized,
        m_active_cursor := some { buffered := [Row.mk 1 10],
                                  batches := [[], [Row.mk 2 20, Row.mk 3 30]] },
        m_next_row := none }).1
      = [NextResult.row (Row.mk 1 10), NextResult.row (Row.mk 2 20),
         NextResult.row (Row.mk 3 30), NextResult.exhausted, NextResult.none] :=
  ⟨⟨Or.inl rfl, rfl⟩,
   (scan_cursor_delivers_each_row_once
      { state := ScanState.Initialized,
        m_active_cursor := some { buffered := [Row.mk 1 10],
                                  batches := [[], [Row.mk 2 20, Row.mk 3 30]] },
        m_next_row := none }
      { buffered := [Row.mk 1 10], batches := [[], [Row.mk 2 20, Row.mk 3 30]] }
      5 ⟨Or.inl rfl, rfl⟩).1⟩

/-! ## Multi-range read -/

/-- A round trip on a used-up round changes nothing in what is still to hand
out. -/
theorem multi_range_round_pending (fits : Nat → Nat) (table : List Row)
    (s : MultiRangeRead) (used_up : s.m_multi_cursor = []) :
    multi_range_pending table (multi_range_round fits table s)
      = multi_range_pending table s := by
  unfold multi_range_pending multi_range_round
  simp only [used_up, List.nil_append]
  have hdrop : s.m_multi_ranges.enum.drop
        (min (s.m_multi_range_defined_end + fits s.m_multi_range_defined_end)
          s.m_multi_ranges.length)
      = (s.m_multi_ranges.enum.drop s.m_multi_range_defined_end).drop
          (fits s.m_multi_range_defined_end) := by
    rw [List.drop_drop]
    by_cases h : s.m_multi_range_defined_end + fits s.m_multi_range_defined_end
        ≤ s.m_multi_ranges.length
    · rw [Nat.min_eq_left h]
    · rw [Nat.min_eq_right (by omega), List.drop_eq_nil_of_le (by simp),
        List.drop_eq_nil_of_le (by simp; omega)]
  rw [hdrop, ← List.flatMap_append, List.take_append_drop]

/-- One `read_multi_range_next` call with enough fuel hands out the first row
still to deliver, with its range number, and leaves the others; at the end
of the read it hands out none. -/
theorem read_multi_range_next_spec (fits : Nat → Nat) (table : List Row)
    (progress : ∀ i, 0 < fits i) (fuel : Nat) :
    ∀ s : MultiRangeRead,
      s.m_multi_ranges.length - s.m_multi_range_defined_end < fuel →
      ∃ s1, read_multi_range_next fits table fuel s
          = some ((multi_range_pending table s).head?.map Prod.snd, s1) ∧
        s1.m_multi_ranges = s.m_multi_ranges ∧
        s.m_multi_range_defined_end ≤ s1.m_multi_range_defined_end ∧
        multi_range_pending table s1 = (multi_range_pending table s).tail ∧
        (∀ hit, (multi_range_pending table s).head? = some hit →
          s1.m_current_range_no = hit.1) := by
  induction fuel with
  | zero => intro s h; omega
  | succ fuel ih =>
      intro s hfuel
      cases hc : s.m_multi_cursor with
      | cons hit rest =>
          refine ⟨{ s with m_multi_cursor := rest, m_current_range_no := hit.1 }, ?_, rfl,
            Nat.le_refl _, ?_, ?_⟩
          · simp [read_multi_range_next, hc, multi_range_pending]
          · simp [multi_range_pending, hc]
          · intro hit1 h1
            simp [multi_range_pending, hc] at h1
            simp [h1]
      | nil =>
          by_cases hend : s.m_multi_ranges.length ≤ s.m_multi_range_defined_end
          · refine ⟨s, ?_, rfl, Nat.le_refl _, ?_, ?_⟩
            · simp [read_multi_range_next, hc, hend, multi_range_pending,
                List.drop_eq_nil_of_le]
            · simp [multi_range_pending, hc, hend, List.drop_eq_nil_of_le]
            · intro hit1 h1
              simp [multi_range_pending, hc, hend, List.drop_eq_nil_of_le] at h1
          · have hp := progress s.m_multi_range_defined_end
            have hround := multi_range_round_pending fits table s hc
            have hlen : (multi_range_round fits table s).m_multi_ranges = s.m_multi_ranges := rfl
            have hdef : (multi_range_round fits table s).m_multi_range_defined_end
                = min (s.m_multi_range_defined_end + fits s.m_multi_range_defined_end)
                    s.m_multi_ranges.length := rfl
            obtain ⟨s1, h1, h2, h3, h4, h5⟩ := ih (multi_range_round fits table s) (by
              rw [hlen, hdef]; omega)
            refine ⟨s1, ?_, h2.trans hlen, ?_, ?_, ?_⟩
            · rw [read_multi_range_next]
              simp only [hc, hend, if_false]
              rw [h1, hround]
            · rw [hdef] at h3; omega
            · rw [h4, hround]
            · intro hit1 hh
              exact h5 hit1 (by rw [hround]; exact hh)

/-- Collecting from a `read_multi_range_next` result with enough fuel gives
exactly the rows that were still to hand out, each with its range number. -/
theorem read_multi_range_collect_spec (fits : Nat → Nat) (table : List Row)
    (progress : ∀ i, 0 < fits i) (fuel : Nat) (n : Nat) :
    ∀ s : MultiRangeRead,
      s.m_multi_ranges.length - s.m_multi_range_defined_end < fuel →
      (multi_range_pending table s).length < n + 1 →
      read_multi_range_collect fits table fuel n (read_multi_range_next fits table fuel s)
        = some (multi_range_pending table s) := by
  induction n with
  | zero =>
      intro s hfuel hlen
      obtain ⟨s1, h1, -⟩ := read_multi_range_next_spec fits table progress fuel s hfuel
      have hnil : multi_range_pending table s = [] := List.length_eq_zero.mp (by omega)
      rw [h1, hnil]
      simp [read_multi_range_collect]
  | succ n ih =>
      intro s hfuel hlen
      obtain ⟨s1, h1, h2, h3, h4, h5⟩ :=
        read_multi_range_next_spec fits table progress fuel s hfuel
      cases hp : multi_range_pending table s with
      | nil =>
          rw [h1, hp]
          simp [read_multi_range_collect]
      | cons hit t =>
          rw [hp] at h1 h4 h5 hlen
          have hcur : s1.m_current_range_no = hit.1 := h5 hit rfl
          have hrec := ih s1 (by rw [h2]; omega) (by
            rw [h4]; simp only [List.tail_cons]; simp only [List.length_cons] at hlen; omega)
          rw [h1]
          simp only [List.head?_cons, Option.map_some', read_multi_range_collect]
          rw [hrec, h4, hcur]
          simp

/-- The rows a numbered list of ranges contributes for one range number. -/
theorem tagged_rows_of_range (table : List Row) (i : Nat) (ranges : List KEY_MULTI_RANGE) :
    ∀ k : Nat,
      (((ranges.enumFrom k).flatMap (tagged_rows table)).filter
          (fun hit => decide (hit.1 = i))).map Prod.snd
        = if k ≤ i then
            (match ranges[i - k]? with
             | some range => range_rows table range
             | none => [])
          else [] := by
  induction ranges with
  | nil => intro k; simp
  | cons range rest ih =>
      intro k
      have hhead : ((tagged_rows table (k, range)).filter
            (fun hit => decide (hit.1 = i))).map Prod.snd
          = if k = i then range_rows table range else [] := by
        unfold tagged_rows
        by_cases hk : k = i
        · simp [hk, List.filter_map, Function.comp_def]
        · simp [hk, List.filter_map, Function.comp_def]
      simp only [List.enumFrom_cons, List.flatMap_cons, List.filter_append, List.map_append,
        hhead, ih (k + 1)]
      by_cases hk : k = i
      · subst hk
        simp
      · by_cases hle : k ≤ i
        · have h1 : k + 1 ≤ i := by omega
          have h2 : i - k = (i - (k + 1)) + 1 := by omega
          simp [hk, hle, h1, h2]
        · have h1 : ¬ k + 1 ≤ i := by omega
          simp [hk, hle, h1]

/-- The number of rows matching the ranges is the sum of the per-range match
counts. -/
theorem multi_range_matches_length (table : List Row) (ranges : List KEY_MULTI_RANGE) :
    (multi_range_matches table ranges).length
      = (ranges.map (fun range => (range_rows table range).length)).sum := by
  unfold multi_range_matches List.enum
  generalize 0 = k
  induction ranges generalizing k with
  | nil => simp
  | cons range rest ih => simp [tagged_rows, ih (k + 1)]

/-- C6: for every table, every list of key ranges and every way of splitting
the ranges into round trips that puts at least one range into each round
(`fits`), the multi-range read, given enough fuel, returns, and what
`read_multi_range_first` followed by `read_multi_range_next` until the end
hands out is exactly the rows matching each range, each reported with the
position of its range: the result does not depend on the split, the rows
reported for range `i` are exactly the rows of the table matching range `i`,
and the total number of rows is the sum of the per-range match counts. -/
theorem multi_range_read_yields_matches (fits fits2 : Nat → Nat) (table : List Row)
    (ranges : List KEY_MULTI_RANGE) (fuel : Nat)
    (progress : ∀ i, 0 < fits i) (progress2 : ∀ i, 0 < fits2 i)
    (enough : ranges.length + (multi_range_matches table ranges).length < fuel) :
    read_multi_range fits table ranges fuel = some (multi_range_matches table ranges) ∧
    read_multi_range fits table ranges fuel = read_multi_range fits2 table ranges fuel ∧
    (∀ i : Nat,
      ((multi_range_matches table ranges).filter (fun hit => decide (hit.1 = i))).map Prod.snd
        = (match ranges[i]? with
           | some range => range_rows table range
           | none => [])) ∧
    (∀ (i : Nat) (row : Row), (i, row) ∈ multi_range_matches table ranges ↔
      ∃ range, ranges[i]? = some range ∧ row ∈ table ∧ range_matches range row = true) ∧
    (multi_range_matches table ranges).length
      = (ranges.map (fun range => (range_rows table range).length)).sum := by
  have run : ∀ f : Nat → Nat, (∀ i, 0 < f i) →
      read_multi_range f table ranges fuel = some (multi_range_matches table ranges) := by
    intro f hf
    have h := read_multi_range_collect_spec f table hf fuel fuel
      { m_multi_ranges := ranges, m_multi_range_defined_end := 0, m_multi_cursor := [],
        m_current_range_no := 0, round_trips := 0 }
      (by simp only [Nat.sub_zero]; omega)
      (by
        simp only [multi_range_pending, List.nil_append, List.drop_zero]
        unfold multi_range_matches at enough
        omega)
    simpa [read_multi_range, read_multi_range_first, multi_range_pending,
      multi_range_matches] using h
  have per_range : ∀ i : Nat,
      ((multi_range_matches table ranges).filter (fun hit => decide (hit.1 = i))).map Prod.snd
        = (match ranges[i]? with
           | some range => range_rows table range
           | none => []) := by
    intro i
    have h := tagged_rows_of_range table i ranges 0
    simpa [multi_range_matches, List.enum] using h
  refine ⟨run fits progress, (run fits progress).trans (run fits2 progress2).symm, per_range,
    ?_, multi_range_matches_length table ranges⟩
  intro i row
  unfold multi_range_matches
  simp only [List.mem_flatMap, tagged_rows, List.mem_map, range_rows, List.mem_filter,
    Prod.mk.injEq]
  constructor
  · rintro ⟨⟨j, range⟩, hmem, row1, ⟨hrow, hmatch⟩, hj, hr⟩
    simp only at hj hr hrow hmatch
    subst hj hr
    exact ⟨range, List.mk_mem_enum_iff_getElem?.mp hmem, hrow, hmatch⟩
  · rintro ⟨range, hget, hrow, hmatch⟩
    exact ⟨(i, range), List.mk_mem_enum_iff_getElem?.mpr hget, row, ⟨hrow, hmatch⟩, rfl, rfl⟩

/-- Witness for C6: three ranges over a five-row table, read one range per
round trip and read in rounds of two ranges. -/
theorem multi_range_read_yields_matches_witness :
    (∀ i : Nat, 0 < (fun _ : Nat => 1) i) ∧ (∀ i : Nat, 0 < (fun _ : Nat => 2) i) ∧
    [KEY_MULTI_RANGE.mk 1 2, KEY_MULTI_RANGE.mk 9 9, KEY_MULTI_RANGE.mk 2 4].length
      + (multi_range_matches
          [Row.mk 1 10, Row.mk 2 20, Row.mk 3 30, Row.mk 4 40, Row.mk 5 50]
          [KEY_MULTI_RANGE.mk 1 2, KEY_MULTI_RANGE.mk 9 9, KEY_MULTI_RANGE.mk 2 4]).length
      < 9 ∧
    read_multi_range (fun _ => 1)
        [Row.mk 1 10, Row.mk 2 20, Row.mk 3 30, Row.mk 4 40, Row.mk 5 50]
        [KEY_MULTI_RANGE.mk 1 2, KEY_MULTI_RANGE.mk 9 9, KEY_MULTI_RANGE.mk 2 4] 9
      = some [(0, Row.mk 1 10), (0, Row.mk 2 20), (2, Row.mk 2 20), (2, Row.mk 3 30),
              (2, Row.mk 4 40)] :=
  ⟨fun _ => Nat.one_pos, fun _ => Nat.two_pos, by decide,
   (multi_range_read_yields_matches (fun _ => 1) (fun _ => 2)
      [Row.mk 1 10, Row.mk 2 20, Row.mk 3 30, Row.mk 4 40, Row.mk 5 50]
      [KEY_MULTI_RANGE.mk 1 2, KEY_MULTI_RANGE.mk 9 9, KEY_MULTI_RANGE.mk 2 4] 9
      (fun _ => Nat.one_pos) (fun _ => Nat.two_pos) (by decide)).1⟩

/-! ## Conflict detection -/

/-- The guarded write, spelled out by the row it meets. -/
theorem apply_replicated_write_eq (action : ConflictAction) (stored : Option Row)
    (concurrent : Option (Option Row)) (w : ReplicatedWrite) :
    apply_replicated_write action stored concurrent w =
      if row_at_execution stored concurrent = some w.old_data then
        (ConflictOutcome.Apply, some w.new_data)
      else if row_at_execution stored concurrent = none then
        (ConflictOutcome.Escalate, none)
      else (action.outcome, row_at_execution stored concurrent) := by
  unfold apply_replicated_write
  cases h : row_at_execution stored concurrent with
  | none => simp
  | some row =>
      by_cases hm : row = w.old_data
      · simp [prepare_conflict_detection, hm]
      · simp [prepare_conflict_detection, hm]

/-- C7: for every replicated write checked by the conflict resolver, whatever
the conflict action and whatever a concurrent writer did: the outcome is
`Reject` or `Escalate`, never `Apply`, exactly when the pre-image does not
match the row the guarded write meets (a row that is gone is `Escalate`),
and the row is then left as it was; the outcome is `Apply` exactly when the
pre-image matches that row, so a write whose pre-image matches the stored row
and that no concurrent write interleaves with is applied and its new image
stored. -/
theorem conflict_detection_outcome (action : ConflictAction) (stored : Option Row)
    (concurrent : Option (Option Row)) (w : ReplicatedWrite) :
    (row_at_execution stored concurrent ≠ some w.old_data ↔
      ((apply_replicated_write action stored concurrent w).1 = ConflictOutcome.Reject ∨
       (apply_replicated_write action stored concurrent w).1 = ConflictOutcome.Escalate)) ∧
    (row_at_execution stored concurrent ≠ some w.old_data ↔
      (apply_replicated_write action stored concurrent w).1 ≠ ConflictOutcome.Apply) ∧
    (row_at_execution stored concurrent = some w.old_data ↔
      (apply_replicated_write action stored concurrent w).1 = ConflictOutcome.Apply) ∧
    apply_replicated_write action stored concurrent w =
      (if row_at_execution stored concurrent = some w.old_data then
        (ConflictOutcome.Apply, some w.new_data)
      else if row_at_execution stored concurrent = none then
        (ConflictOutcome.Escalate, none)
      else (action.outcome, row_at_execution stored concurrent)) ∧
    apply_replicated_write action (some w.old_data) none w
      = (ConflictOutcome.Apply, some w.new_data) ∧
    apply_replicated_write action none none w = (ConflictOutcome.Escalate, none) := by
  have key := apply_replicated_write_eq action stored concurrent w
  refine ⟨?_, ?_, ?_, key, ?_, ?_⟩
  · rw [key]
    by_cases h1 : row_at_execution stored concurrent = some w.old_data
    · simp [h1]
    · by_cases h2 : row_at_execution stored concurrent = none
      · simp [h2]
      · cases action <;> simp [h1, h2, ConflictAction.outcome]
  · rw [key]
    by_cases h1 : row_at_execution stored concurrent = some w.old_data
    · simp [h1]
    · by_cases h2 : row_at_execution stored concurrent = none
      · simp [h2]
      · cases action <;> simp [h1, h2, ConflictAction.outcome]
  · rw [key]
    by_cases h1 : row_at_execution stored concurrent = some w.old_data
    · simp [h1]
    · by_cases h2 : row_at_execution stored concurrent = none
      · simp [h2]
      · cases action <;> simp [h1, h2, ConflictAction.outcome]
  · simp [apply_replicated_write, row_at_execution, prepare_conflict_detection]
  · simp [apply_replicated_write, row_at_execution]

/-! ## Frame of the binary-log flag setters -/

/-- Setting bit `k` of a `uint32` leaves every other bit below 32 alone. -/
theorem uint32_or_agree (x k : Nat) : flags_agree_except k x (uint32 (x ||| 2 ^ k)) := by
  intro i hi hne
  unfold uint32
  simp only [Nat.testBit_mod_two_pow, Nat.testBit_or, Nat.testBit_two_pow]
  have hk : ¬ k = i := fun h => hne h.symm
  simp [hi, hk]

/-- Clearing bit `k` of a `uint32` leaves every other bit below 32 alone. -/
theorem uint32_and_not_agree (x k : Nat) (hk : k < 32) :
    flags_agree_except k x (uint32 (x &&& not32 (2 ^ k))) := by
  intro i hi hne
  unfold not32 uint32
  have hlt : 2 ^ k < 2 ^ 32 := Nat.pow_lt_pow_right (by norm_num) hk
  have e : 2 ^ 32 - 1 - 2 ^ k % 2 ^ 32 = 2 ^ 32 - (2 ^ k + 1) := by
    rw [Nat.mod_eq_of_lt hlt]; omega
  rw [e]
  simp only [Nat.testBit_mod_two_pow, Nat.testBit_and]
  rw [Nat.testBit_two_pow_sub_succ hlt, Nat.testBit_two_pow]
  have hk2 : ¬ k = i := fun h => hne h.symm
  simp [hi, hk2]

/-- Flag words that agree on bit `j` give the same result under mask `2 ^ j`. -/
theorem and_mask_of_agree (own x y j : Nat) (h : flags_agree_except own x y)
    (hj : j < 32) (hne : j ≠ own) : y &&& 2 ^ j = x &&& 2 ^ j := by
  apply Nat.eq_of_testBit_eq
  intro i
  simp only [Nat.testBit_and, Nat.testBit_two_pow]
  by_cases hji : j = i
  · subst hji
    simp [h j hj hne]
  · simp [hji]

/-- A setter that touches only bit 2 of `flags` keeps the frame of
`NSF_NO_BINLOG`. -/
theorem setter_frame_no_binlog (before after : NDB_SHARE)
    (hrest : { after with flags := before.flags } = before)
    (h : flags_agree_except 2 before.flags after.flags) :
    setter_frame 2 get_binlog_full get_binlog_use_update before after := by
  have m0 : after.flags &&& NSF_HIDDEN_PK = before.flags &&& NSF_HIDDEN_PK :=
    and_mask_of_agree 2 _ _ 0 h (by decide) (by decide)
  have m1 : after.flags &&& NSF_BLOB_FLAG = before.flags &&& NSF_BLOB_FLAG :=
    and_mask_of_agree 2 _ _ 1 h (by decide) (by decide)
  have m3 : after.flags &&& NSF_BINLOG_FULL = before.flags &&& NSF_BINLOG_FULL :=
    and_mask_of_agree 2 _ _ 3 h (by decide) (by decide)
  have m4 : after.flags &&& NSF_BINLOG_USE_UPDATE = before.flags &&& NSF_BINLOG_USE_UPDATE :=
    and_mask_of_agree 2 _ _ 4 h (by decide) (by decide)
  refine ⟨h, hrest, m0, m1, ?_, ?_⟩
  · unfold get_binlog_full; rw [m3]
  · unfold get_binlog_use_update; rw [m4]

/-- A setter that touches only bit 3 of `flags` keeps the frame of
`NSF_BINLOG_FULL`. -/
theorem setter_frame_binlog_full (before after : NDB_SHARE)
    (hrest : { after with flags := before.flags } = before)
    (h : flags_agree_except 3 before.flags after.flags) :
    setter_frame 3 get_binlog_nologging get_binlog_use_update before after := by
  have m0 : after.flags &&& NSF_HIDDEN_PK = before.flags &&& NSF_HIDDEN_PK :=
    and_mask_of_agree 3 _ _ 0 h (by decide) (by decide)
  have m1 : after.flags &&& NSF_BLOB_FLAG = before.flags &&& NSF_BLOB_FLAG :=
    and_mask_of_agree 3 _ _ 1 h (by decide) (by decide)
  have m2 : after.flags &&& NSF_NO_BINLOG = before.flags &&& NSF_NO_BINLOG :=
    and_mask_of_agree 3 _ _ 2 h (by decide) (by decide)
  have m4 : after.flags &&& NSF_BINLOG_USE_UPDATE = before.flags &&& NSF_BINLOG_USE_UPDATE :=
    and_mask_of_agree 3 _ _ 4 h (by decide) (by decide)
  refine ⟨h, hrest, m0, m1, ?_, ?_⟩
  · unfold get_binlog_nologging; rw [m2]
  · unfold get_binlog_use_update; rw [m4]

/-- A setter that touches only bit 4 of `flags` keeps the frame of
`NSF_BINLOG_USE_UPDATE`. -/
theorem setter_frame_binlog_use_update (before after : NDB_SHARE)
    (hrest : { after with flags := before.flags } = before)
    (h : flags_agree_except 4 before.flags after.flags) :
    setter_frame 4 get_binlog_nologging get_binlog_full before after := by
  have m0 : after.flags &&& NSF_HIDDEN_PK = before.flags &&& NSF_HIDDEN_PK :=
    and_mask_of_agree 4 _ _ 0 h (by decide) (by decide)
  have m1 : after.flags &&& NSF_BLOB_FLAG = before.flags &&& NSF_BLOB_FLAG :=
    and_mask_of_agree 4 _ _ 1 h (by decide) (by decide)
  have m2 : after.flags &&& NSF_NO_BINLOG = before.flags &&& NSF_NO_BINLOG :=
    and_mask_of_agree 4 _ _ 2 h (by decide) (by decide)
  have m3 : after.flags &&& NSF_BINLOG_FULL = before.flags &&& NSF_BINLOG_FULL :=
    and_mask_of_agree 4 _ _ 3 h (by decide) (by decide)
  refine ⟨h, hrest, m0, m1, ?_, ?_⟩
  · unfold get_binlog_nologging; rw [m2]
  · unfold get_binlog_full; rw [m3]

/-- C11: each of the six binlog flag setters changes at most its own bit of
`share->flags`. For every share, after `set_binlog_logging` or
`set_binlog_nologging` (bit 2), `set_binlog_updated_only` or
`set_binlog_full` (bit 3), `set_binlog_use_write` or `set_binlog_use_update`
(bit 4), every other bit of the 32-bit flags word and every other field of
the share are as before, in particular the `NSF_HIDDEN_PK` and
`NSF_BLOB_FLAG` bits, the two other binlog getters return what they returned
before, and the flags are still a 32-bit value; the five `NSF_*` masks are
the single bits 0 to 4 and pairwise disjoint. -/
theorem binlog_setters_frame (share : NDB_SHARE) :
    setter_frame 2 get_binlog_full get_binlog_use_update share (set_binlog_logging share) ∧
    setter_frame 2 get_binlog_full get_binlog_use_update share (set_binlog_nologging share) ∧
    setter_frame 3 get_binlog_nologging get_binlog_use_update share
      (set_binlog_updated_only share) ∧
    setter_frame 3 get_binlog_nologging get_binlog_use_update share (set_binlog_full share) ∧
    setter_frame 4 get_binlog_nologging get_binlog_full share (set_binlog_use_write share) ∧
    setter_frame 4 get_binlog_nologging get_binlog_full share (set_binlog_use_update share) ∧
    [(set_binlog_logging share).flags, (set_binlog_nologging share).flags,
     (set_binlog_updated_only share).flags, (set_binlog_full share).flags,
     (set_binlog_use_write share).flags, (set_binlog_use_update share).flags].all
      (fun flags => decide (flags < 2 ^ 32)) = true ∧
    [NSF_HIDDEN_PK, NSF_BLOB_FLAG, NSF_NO_BINLOG, NSF_BINLOG_FULL, NSF_BINLOG_USE_UPDATE]
      = [2 ^ 0, 2 ^ 1, 2 ^ 2, 2 ^ 3, 2 ^ 4] ∧
    List.Pairwise (fun a b => a &&& b = 0)
      [NSF_HIDDEN_PK, NSF_BLOB_FLAG, NSF_NO_BINLOG, NSF_BINLOG_FULL, NSF_BINLOG_USE_UPDATE] := by
  refine ⟨setter_frame_no_binlog _ _ rfl (uint32_and_not_agree share.flags 2 (by decide)),
    setter_frame_no_binlog _ _ rfl (uint32_or_agree share.flags 2),
    setter_frame_binlog_full _ _ rfl (uint32_and_not_agree share.flags 3 (by decide)),
    setter_frame_binlog_full _ _ rfl (uint32_or_agree share.flags 3),
    setter_frame_binlog_use_update _ _ rfl (uint32_and_not_agree share.flags 4 (by decide)),
    setter_frame_binlog_use_update _ _ rfl (uint32_or_agree share.flags 4), ?_, by decide,
    by decide⟩
  have hlt : ∀ x : Nat, uint32 x < 4294967296 := fun x => Nat.mod_lt _ (by norm_num)
  simp [set_binlog_logging, set_binlog_nologging, set_binlog_updated_only, set_binlog_full,
    set_binlog_use_write, set_binlog_use_update, hlt]

/-! ## Share state: set, then get -/

/-- C12: for every share whose mutex is free and every state `s` of
`NSS_INITIAL`, `NSS_DROPPED`, `NSS_ALTERED`, `set_ndb_share_state(share, s)`
returns and `get_ndb_share_state` after it returns `s`;
`set_ndb_share_state` changes no field of the share other than `state`
(`use_count`, `flags`, `commit_count`, `key` and the others are as before,
the mutex is free again), and `get_ndb_share_state` returns the state and
changes no field at all. -/
theorem share_state_set_then_get (share : NDB_SHARE) (s : NDB_SHARE_STATE)
    (free : share.mutex = false) :
    (set_ndb_share_state share s).bind
        (fun run => Option.map ShareRun.ret (get_ndb_share_state run.share)) = some s ∧
    Option.map ShareRun.share (set_ndb_share_state share s)
      = some { share with state := s } ∧
    Option.map
        (fun run => (run.share.use_count, run.share.flags, run.share.commit_count,
          run.share.key, run.share.commit_count_lock, run.share.connect_count,
          run.share.mutex))
        (set_ndb_share_state share s)
      = some (share.use_count, share.flags, share.commit_count, share.key,
          share.commit_count_lock, share.connect_count, share.mutex) ∧
    Option.map ShareRun.share (get_ndb_share_state share) = some share ∧
    Option.map ShareRun.ret (get_ndb_share_state share) = some share.state ∧
    s ∈ [NDB_SHARE_STATE.NSS_INITIAL, NDB_SHARE_STATE.NSS_DROPPED,
         NDB_SHARE_STATE.NSS_ALTERED] := by
  rw [set_ndb_share_state_of_free share s free, get_ndb_share_state_of_free share free]
  refine ⟨?_, rfl, ?_, rfl, rfl, ?_⟩
  · simp only [Option.some_bind]
    rw [get_ndb_share_state_of_free { share with state := s } free]
    rfl
  · simp [free]
  · cases s <;> simp

/-- Witness for C12: a share in use by two handlers, with flags set, dropped. -/
theorem share_state_set_then_get_witness :
    (NDB_SHARE.mk NDB_SHARE_STATE.NSS_INITIAL false "t1" 2 0 17 1 5).mutex = false ∧
    (set_ndb_share_state (NDB_SHARE.mk NDB_SHARE_STATE.NSS_INITIAL false "t1" 2 0 17 1 5)
        NDB_SHARE_STATE.NSS_DROPPED).bind
        (fun run => Option.map ShareRun.ret (get_ndb_share_state run.share))
      = some NDB_SHARE_STATE.NSS_DROPPED ∧
    Option.map ShareRun.share
        (set_ndb_share_state (NDB_SHARE.mk NDB_SHARE_STATE.NSS_INITIAL false "t1" 2 0 17 1 5)
          NDB_SHARE_STATE.NSS_DROPPED)
      = some (NDB_SHARE.mk NDB_SHARE_STATE.NSS_DROPPED false "t1" 2 0 17 1 5) :=
  ⟨rfl,
   (share_state_set_then_get
      (NDB_SHARE.mk NDB_SHARE_STATE.NSS_INITIAL false "t1" 2 0 17 1 5)
      NDB_SHARE_STATE.NSS_DROPPED rfl).1,
   (share_state_set_then_get
      (NDB_SHARE.mk NDB_SHARE_STATE.NSS_INITIAL false "t1" 2 0 17 1 5)
      NDB_SHARE_STATE.NSS_DROPPED rfl).2.1⟩

/-! ## Error classification -/

/-- C13: for every error code and flags, `ha_ndbcluster::is_fatal_error` is
TRUE if and only if the base `handler::is_fatal_error` is TRUE and the error
is not `HA_ERR_NO_PARTITION_FOUND`; so `HA_ERR_NO_PARTITION_FOUND` is never
fatal, and an error the base handler treats as non-fatal is never reported
fatal. -/
theorem is_fatal_error_iff (handler_is_fatal_error : Int → Nat → Bool)
    (HA_ERR_NO_PARTITION_FOUND : Int) (error : Int) (flags : Nat) :
    (is_fatal_error handler_is_fatal_error HA_ERR_NO_PARTITION_FOUND error flags = true ↔
      handler_is_fatal_error error flags = true ∧ error ≠ HA_ERR_NO_PARTITION_FOUND) ∧
    is_fatal_error handler_is_fatal_error HA_ERR_NO_PARTITION_FOUND
        HA_ERR_NO_PARTITION_FOUND flags = false ∧
    is_fatal_error handler_is_fatal_error HA_ERR_NO_PARTITION_FOUND error flags
      = (handler_is_fatal_error error flags && decide (error ≠ HA_ERR_NO_PARTITION_FOUND)) ∧
    (is_fatal_error handler_is_fatal_error HA_ERR_NO_PARTITION_FOUND error flags
      && !(handler_is_fatal_error error flags)) = false := by
  unfold is_fatal_error
  by_cases hb : handler_is_fatal_error error flags = true
  · by_cases he : error = HA_ERR_NO_PARTITION_FOUND
    · simp [hb, he]
    · simp [hb, he]
  · simp only [Bool.not_eq_true] at hb
    simp [hb]

/-! ## Index descriptors -/

/-- C14, as the header has it: every index descriptor's type is one of
exactly six enumerators, `UNDEFINED_INDEX` and the five kinds
`PRIMARY_KEY_INDEX`, `PRIMARY_KEY_ORDERED_INDEX`, `UNIQUE_INDEX`,
`UNIQUE_ORDERED_INDEX`, `ORDERED_INDEX`; it is one of the five kinds exactly
when it is not `UNDEFINED_INDEX`; every status is one of exactly `UNDEFINED`,
`ACTIVE`, `TO_BE_DROPPED`; the enumerators of each enumeration are encoded
0 to 5 and 0 to 2, so pairwise distinct. -/
theorem index_descriptor_enumerations (d : NDB_INDEX_DATA)
    (t1 t2 : NDB_INDEX_TYPE) (s1 s2 : NDB_INDEX_STATUS) :
    d.type ∈ all_index_types ∧
    (d.type ∈ spec_index_types ↔ d.type ≠ NDB_INDEX_TYPE.UNDEFINED_INDEX) ∧
    d.status ∈ all_index_statuses ∧
    all_index_types.Nodup ∧ all_index_types.length = 6 ∧
    all_index_statuses.Nodup ∧ all_index_statuses.length = 3 ∧
    all_index_types.map NDB_INDEX_TYPE.value = [0, 1, 2, 3, 4, 5] ∧
    all_index_statuses.map NDB_INDEX_STATUS.value = [0, 1, 2] ∧
    (t1.value = t2.value ↔ t1 = t2) ∧
    (s1.value = s2.value ↔ s1 = s2) := by
  refine ⟨?_, ?_, ?_, by decide, by decide, by decide, by decide, by decide, by decide, ?_, ?_⟩
  · cases d.type <;> decide
  · cases d.type <;> decide
  · cases d.status <;> decide
  · cases t1 <;> cases t2 <;> decide
  · cases s1 <;> cases s2 <;> decide

/-- Counterexample to C14 as stated: `UNDEFINED_INDEX`, encoded 0, is a type
an index descriptor can have and is none of the five kinds. -/
theorem index_type_undefined_is_sixth :
    (NDB_INDEX_DATA.mk NDB_INDEX_TYPE.UNDEFINED_INDEX NDB_INDEX_STATUS.UNDEFINED none none
      false).type ∉ spec_index_types ∧
    NDB_INDEX_TYPE.UNDEFINED_INDEX.value = 0 ∧
    NDB_INDEX_TYPE.UNDEFINED_INDEX ≠ NDB_INDEX_TYPE.PRIMARY_KEY_INDEX ∧
    NDB_INDEX_TYPE.UNDEFINED_INDEX ≠ NDB_INDEX_TYPE.PRIMARY_KEY_ORDERED_INDEX ∧
    NDB_INDEX_TYPE.UNDEFINED_INDEX ≠ NDB_INDEX_TYPE.UNIQUE_INDEX ∧
    NDB_INDEX_TYPE.UNDEFINED_INDEX ≠ NDB_INDEX_TYPE.UNIQUE_ORDERED_INDEX ∧
    NDB_INDEX_TYPE.UNDEFINED_INDEX ≠ NDB_INDEX_TYPE.ORDERED_INDEX := by
  decide

/-! ## Hidden columns -/

/-- C15: for every table share with `fields` user columns, `fields + 1` still
an index of type `Uint32`: `get_hidden_key_column` selects column index
`fields`; `get_partition_id_column` selects column index `fields + 1` when
the table has no explicit primary key (`primary_key == MAX_KEY`) and index
`fields` otherwise. So for a hidden-primary-key table the partition-id
column is the column right after the hidden key column, at a different
index, and a different column when the table has both and its columns are
distinct; for a table with an explicit primary key both accessors select the
same column. -/
theorem hidden_column_indexes (MAX_KEY : Nat) (m_table : NdbTable)
    (table_share : TABLE_SHARE) (room : table_share.fields + 1 < 2 ^ 32) :
    get_hidden_key_column m_table table_share = m_table.getColumn table_share.fields ∧
    partition_id_column_index MAX_KEY table_share
      = (if table_share.primary_key = MAX_KEY then table_share.fields + 1
         else table_share.fields) ∧
    get_partition_id_column MAX_KEY m_table table_share
      = m_table.getColumn
          (if table_share.primary_key = MAX_KEY then table_share.fields + 1
           else table_share.fields) ∧
    (table_share.primary_key = MAX_KEY →
      partition_id_column_index MAX_KEY table_share = table_share.fields + 1 ∧
      partition_id_column_index MAX_KEY table_share ≠ table_share.fields ∧
      get_partition_id_column MAX_KEY m_table table_share
        = m_table.getColumn (table_share.fields + 1) ∧
      (m_table.columns.Nodup → table_share.fields + 1 < m_table.columns.length →
        get_partition_id_column MAX_KEY m_table table_share
          ≠ get_hidden_key_column m_table table_share)) ∧
    (table_share.primary_key ≠ MAX_KEY →
      partition_id_column_index MAX_KEY table_share = table_share.fields ∧
      get_partition_id_column MAX_KEY m_table table_share
        = get_hidden_key_column m_table table_share) := by
  have hidx : partition_id_column_index MAX_KEY table_share
      = (if table_share.primary_key = MAX_KEY then table_share.fields + 1
         else table_share.fields) := by
    unfold partition_id_column_index uint32
    split
    · exact Nat.mod_eq_of_lt room
    · exact Nat.mod_eq_of_lt (by omega)
  refine ⟨rfl, hidx, by rw [get_partition_id_column, hidx], ?_, ?_⟩
  · intro hpk
    rw [get_partition_id_column, hidx]
    simp only [hpk, if_true]
    refine ⟨trivial, by omega, trivial, ?_⟩
    intro hnd hlen heq
    unfold get_hidden_key_column NdbTable.getColumn at heq
    have := List.getElem?_inj hlen hnd heq
    omega
  · intro hpk
    rw [get_partition_id_column, hidx]
    simp only [hpk, if_false]
    exact ⟨trivial, rfl⟩

/-- Witness for C15: a table with three user columns, no explicit primary key
(`MAX_KEY` taken as 64), the hidden key column and the partition-id column. -/
theorem hidden_column_indexes_witness :
    (TABLE_SHARE.mk 3 64).fields + 1 < 2 ^ 32 ∧
    get_hidden_key_column
        (NdbTable.mk [NdbColumn.mk "a", NdbColumn.mk "b", NdbColumn.mk "c",
          NdbColumn.mk "pk_hidden", NdbColumn.mk "part_func_value"])
        (TABLE_SHARE.mk 3 64)
      = some (NdbColumn.mk "pk_hidden") ∧
    get_partition_id_column 64
        (NdbTable.mk [NdbColumn.mk "a", NdbColumn.mk "b", NdbColumn.mk "c",
          NdbColumn.mk "pk_hidden", NdbColumn.mk "part_func_value"])
        (TABLE_SHARE.mk 3 64)
      = some (NdbColumn.mk "part_func_value") :=
  ⟨by decide,
   (hidden_column_indexes 64
      (NdbTable.mk [NdbColumn.mk "a", NdbColumn.mk "b", NdbColumn.mk "c",
        NdbColumn.mk "pk_hidden", NdbColumn.mk "part_func_value"])
      (TABLE_SHARE.mk 3 64) (by decide)).1,
   (hidden_column_indexes 64
      (NdbTable.mk [NdbColumn.mk "a", NdbColumn.mk "b", NdbColumn.mk "c",
        NdbColumn.mk "pk_hidden", NdbColumn.mk "part_func_value"])
      (TABLE_SHARE.mk 3 64) (by decide)).2.2.1⟩

/-! ## Bitmap buffers -/

/-- The rounded-up quotient covers the dividend and overshoots by less than
one divisor. -/
theorem ceil_div_bounds (n w : Nat) (hw : 0 < w) :
    n ≤ (n + w - 1) / w * w ∧ (0 < n → ((n + w - 1) / w - 1) * w < n) := by
  have hdm := Nat.div_add_mod (n + w - 1) w
  have hmod := Nat.mod_lt (n + w - 1) hw
  rw [Nat.mul_comm] at hdm
  constructor
  · generalize (n + w - 1) / w * w = q at hdm
    omega
  · intro hn
    rw [Nat.sub_mul, Nat.one_mul]
    generalize (n + w - 1) / w * w = q at hdm
    omega

/-- C16: the word buffers `m_bitmap_buf` and `m_pk_bitmap_buf` are large
enough for one bit per table attribute and waste less than one word. For
every attribute limit `n` and word size with width `w = 8 * sizeof > 0`, the
declared length `L = (n + w - 1) / w` satisfies `L * w >= n` and, when
`n > 0`, `(L - 1) * w < n`; hence for every attribute index `i < n` the word
index `i / w` is below `L`. -/
theorem bitmap_buf_length_bounds (NDB_MAX_ATTRIBUTES_IN_TABLE sizeof_my_bitmap_map i : Nat)
    (word : 0 < 8 * sizeof_my_bitmap_map) :
    NDB_MAX_ATTRIBUTES_IN_TABLE
      ≤ m_bitmap_buf_length NDB_MAX_ATTRIBUTES_IN_TABLE sizeof_my_bitmap_map
          * (8 * sizeof_my_bitmap_map) ∧
    (0 < NDB_MAX_ATTRIBUTES_IN_TABLE →
      (m_bitmap_buf_length NDB_MAX_ATTRIBUTES_IN_TABLE sizeof_my_bitmap_map - 1)
          * (8 * sizeof_my_bitmap_map) < NDB_MAX_ATTRIBUTES_IN_TABLE) ∧
    (i < NDB_MAX_ATTRIBUTES_IN_TABLE →
      bitmap_word_index sizeof_my_bitmap_map i
        < m_bitmap_buf_length NDB_MAX_ATTRIBUTES_IN_TABLE sizeof_my_bitmap_map) ∧
    m_pk_bitmap_buf_length NDB_MAX_ATTRIBUTES_IN_TABLE sizeof_my_bitmap_map
      = m_bitmap_buf_length NDB_MAX_ATTRIBUTES_IN_TABLE sizeof_my_bitmap_map ∧
    (i < NDB_MAX_ATTRIBUTES_IN_TABLE →
      bitmap_word_index sizeof_my_bitmap_map i
        < m_pk_bitmap_buf_length NDB_MAX_ATTRIBUTES_IN_TABLE sizeof_my_bitmap_map) := by
  obtain ⟨hcover, htight⟩ :=
    ceil_div_bounds NDB_MAX_ATTRIBUTES_IN_TABLE (8 * sizeof_my_bitmap_map) word
  have hidx : i < NDB_MAX_ATTRIBUTES_IN_TABLE →
      bitmap_word_index sizeof_my_bitmap_map i
        < m_bitmap_buf_length NDB_MAX_ATTRIBUTES_IN_TABLE sizeof_my_bitmap_map := by
    intro hi
    unfold bitmap_word_index m_bitmap_buf_length
    rw [Nat.div_lt_iff_lt_mul word]
    exact Nat.lt_of_lt_of_le hi hcover
  exact ⟨hcover, htight, hidx, rfl, hidx⟩

/-- Witness for C16: 512 attributes and 4-byte bitmap words give 16 words;
attribute 511 lies in word 15. -/
theorem bitmap_buf_length_bounds_witness :
    0 < 8 * 4 ∧ m_bitmap_buf_length 512 4 = 16 ∧
    512 ≤ m_bitmap_buf_length 512 4 * (8 * 4) ∧
    bitmap_word_index 4 511 = 15 :=
  ⟨by decide, by decide, (bitmap_buf_length_bounds 512 4 511 (by decide)).1, by decide⟩

end NdbCluster
